import Mathlib

/-!
Verification of the jomini text-tape parser and scalar layer.

The Rust sources under `src/` are shallowly embedded here: bytes are `Nat`
values below 256, byte strings are `List Nat`, `u64` arithmetic is `Nat`
arithmetic with explicit `% 2^64`, `i64` values are `Int` with explicit
two's-complement wrapping, fallible functions return `Except`.  `f64`
arithmetic in `to_f64` is modelled with exact rationals.

All recursive functions are structurally recursive (on a list or on a fuel
counter) so that they evaluate inside the kernel.
-/

namespace Jomini

set_option maxRecDepth 10000

/-- Decidable equality for `Except`, used to evaluate parse results. -/
instance instDecEqExcept {ε α : Type} [DecidableEq ε] [DecidableEq α] :
    DecidableEq (Except ε α) := fun a b =>
  match a, b with
  | .ok x, .ok y => if h : x = y then .isTrue (by rw [h]) else .isFalse (by simp [h])
  | .error x, .error y => if h : x = y then .isTrue (by rw [h]) else .isFalse (by simp [h])
  | .ok _, .error _ => .isFalse (by simp)
  | .error _, .ok _ => .isFalse (by simp)

/-- Convenience: the bytes of an ASCII string literal. -/
def bytes (s : String) : List Nat := s.toList.map Char.toNat

/-- `2^64`, the modulus of `u64` arithmetic. -/
def U64MOD : Nat := 18446744073709551616

/-! ## Byte utilities (`util.rs`)

`util.rs` is not among the provided sources; the three primitives are
modelled from the spec (§4.1), which specifies them exactly. -/

/-- Modelled from the spec: `le_u64(b)`, the little-endian load of bytes
(generalised to any length; the source only applies it to 8 bytes). -/
def le_u64 : List Nat → Nat
  | [] => 0
  | b :: rest => b + 256 * le_u64 rest

/-- Modelled from the spec: `repeat_byte(c) = 0x0101…01 * c`. -/
def repeat_byte (c : Nat) : Nat := 0x0101010101010101 * c

/-- Modelled from the spec: the classic SWAR zero-byte test
`((w - 0x0101…) & !w & 0x8080…) != 0`, with wrapping `u64` subtraction and
`!w = w ^ 0xFFFF…`. -/
def contains_zero_byte (x : Nat) : Bool :=
  ((x + (U64MOD - 0x0101010101010101)) % U64MOD &&&
      (0xFFFFFFFFFFFFFFFF ^^^ x) &&& 0x8080808080808080) != 0

/-! ## Character tables (`data.rs`)

`data.rs` is not among the provided sources; the predicates and the
Windows-1252 table are modelled from the spec (§4.2, glossary, §9). -/

/-- Modelled from the spec: whitespace bytes
(space, tab, CR, LF, form-feed, vertical-tab). -/
def is_whitespace (b : Nat) : Bool :=
  b == 32 || b == 9 || b == 10 || b == 13 || b == 12 || b == 11

/-- Modelled from the spec: boundary bytes terminating an unquoted scalar
(whitespace, `{`, `}`, `=`, `#`, `"`). -/
def is_boundary (b : Nat) : Bool :=
  is_whitespace b || b == 123 || b == 125 || b == 61 || b == 35 || b == 34

/-- Modelled from the spec: the 256-entry Windows-1252 → Unicode best-fit
table (`WINDOWS_1252` in `data.rs`); 0x81, 0x8D, 0x8F, 0x90, 0x9D map to the
corresponding C1 control characters. -/
def WINDOWS_1252 (b : Nat) : Char :=
  if b < 0x80 then Char.ofNat b
  else if 0xA0 ≤ b then Char.ofNat b
  else Char.ofNat (match b with
    | 0x80 => 0x20AC | 0x81 => 0x81   | 0x82 => 0x201A | 0x83 => 0x0192
    | 0x84 => 0x201E | 0x85 => 0x2026 | 0x86 => 0x2020 | 0x87 => 0x2021
    | 0x88 => 0x02C6 | 0x89 => 0x2030 | 0x8A => 0x0160 | 0x8B => 0x2039
    | 0x8C => 0x0152 | 0x8D => 0x8D   | 0x8E => 0x017D | 0x8F => 0x8F
    | 0x90 => 0x90   | 0x91 => 0x2018 | 0x92 => 0x2019 | 0x93 => 0x201C
    | 0x94 => 0x201D | 0x95 => 0x2022 | 0x96 => 0x2013 | 0x97 => 0x2014
    | 0x98 => 0x02DC | 0x99 => 0x2122 | 0x9A => 0x0161 | 0x9B => 0x203A
    | 0x9C => 0x0153 | 0x9D => 0x9D   | 0x9E => 0x017E | _ => 0x0178)

/-! ## Scalar errors and string decoding (`scalar.rs`) -/

/-- `ScalarError` from `scalar.rs`. -/
inductive ScalarError where
  | allDigits
  | overflow
  | invalidBool
deriving DecidableEq

/-- The result of `windows_1252_to_utf8`: a `Cow<'_, str>` is modelled by
whether it is the `Borrowed` variant together with the character contents. -/
structure CowStr where
  borrowed : Bool
  content : List Char
deriving DecidableEq

/-- The trailing-whitespace trim at the start of `windows_1252_to_utf8`:
if the last byte is whitespace, drop the trailing whitespace run. -/
def trimEnd (d : List Nat) : List Nat :=
  match d.getLast? with
  | some b =>
      if is_whitespace b then ((d.reverse.dropWhile fun x => is_whitespace x)).reverse
      else d
  | none => d

/-- The 8-byte chunk test of `windows_1252_to_utf8`: the chunk holds a
non-ASCII byte (`wide & 0x8080… != 0`) or a backslash byte. -/
def w1252ChunkFlag (n : List Nat) : Bool :=
  let wide := le_u64 n
  (wide &&& 0x8080808080808080 != 0) || contains_zero_byte (wide ^^^ repeat_byte 92)

/-- The bytewise pass of `windows_1252_to_utf8` over the remainder
(`!byte.is_ascii() || byte == b'\\'`), returning the offset of the first
flagged byte. -/
def w1252Tail : List Nat → Nat → Option Nat
  | [], _ => none
  | b :: r, offset =>
      if !(b < 128) || b == 92 then some offset else w1252Tail r (offset + 1)

/-- The scanning loops of `windows_1252_to_utf8`: 8-byte chunks first
(chunk-granular split offset), then the remainder bytewise. -/
def w1252Scan : List Nat → Nat → Option Nat
  | b0 :: b1 :: b2 :: b3 :: b4 :: b5 :: b6 :: b7 :: rest, offset =>
      if w1252ChunkFlag [b0, b1, b2, b3, b4, b5, b6, b7] then some offset
      else w1252Scan rest (offset + 8)
  | rem, offset => w1252Tail rem offset

/-- `windows_1252_to_utf8` from `scalar.rs`: trim trailing whitespace; if the
data is clean ASCII with no backslashes return a borrowed view, otherwise
build an owned string from the clean head plus the remaining bytes with
backslashes dropped and each byte translated through `WINDOWS_1252`. -/
def windows_1252_to_utf8 (d0 : List Nat) : CowStr :=
  let d := trimEnd d0
  match w1252Scan d 0 with
  | some offset =>
      let upto := d.take offset
      let rest := d.drop offset
      ⟨false, upto.map Char.ofNat ++ ((rest.filter fun x => x != 92)).map WINDOWS_1252⟩
  | none => ⟨true, d.map Char.ofNat⟩

/-! ## Integer parsing (`scalar.rs`) -/

/-- `is_digits_wide` from `scalar.rs` (simdjson SWAR digit test on one
8-byte chunk), including the `checked_add` guard. -/
def is_digits_wide (d : List Nat) : Bool :=
  let val := le_u64 d
  if val + 0x0606060606060606 < U64MOD then
    ((val &&& 0xF0F0F0F0F0F0F0F0) |||
        (((val + 0x0606060606060606) &&& 0xF0F0F0F0F0F0F0F0) >>> 4)) ==
      0x3333333333333333
  else false

/-- `is_digits` from `scalar.rs`: every byte is an ASCII digit. -/
def is_digits (d : List Nat) : Bool := !(d.any fun x => x < 48 || 57 < x)

/-- `ascii_u64_to_digits` from `scalar.rs` (simdjson): three wrapping
multiply-and-shift steps turning eight ASCII digits into their value. -/
def ascii_u64_to_digits (val0 : Nat) : Nat :=
  let v1 := (((val0 &&& 0x0F0F0F0F0F0F0F0F) * 2561) % U64MOD) >>> 8
  let v2 := (((v1 &&& 0x00FF00FF00FF00FF) * 6553601) % U64MOD) >>> 16
  (((v2 &&& 0x0000FFFF0000FFFF) * 42949672960001) % U64MOD) >>> 32

/-- `u64::checked_add`. -/
def checked_add (a b : Nat) : Option Nat :=
  if a + b < U64MOD then some (a + b) else none

/-- `u64::checked_mul`. -/
def checked_mul (a b : Nat) : Option Nat :=
  if a * b < U64MOD then some (a * b) else none

/-- `10u64.checked_pow(n)`. -/
def checked_pow10 (n : Nat) : Option Nat :=
  if 10 ^ n < U64MOD then some (10 ^ n) else none

/-- `chunks_exact(8)`: the full 8-byte chunks. -/
def chunksExact8 : List Nat → List (List Nat)
  | b0 :: b1 :: b2 :: b3 :: b4 :: b5 :: b6 :: b7 :: rest =>
      [b0, b1, b2, b3, b4, b5, b6, b7] :: chunksExact8 rest
  | _ => []

/-- `chunks_exact(8).remainder()`: the trailing 0–7 bytes. -/
def chunksRemainder8 : List Nat → List Nat
  | _ :: _ :: _ :: _ :: _ :: _ :: _ :: _ :: rest => chunksRemainder8 rest
  | rem => rem

/-- The chunk-accumulation loop of `to_u64`: for each chunk the source
computes `result.checked_mul(100_000_000)`, then `checked_add` of the chunk
value, and then `checked_add(result)` again; a `None` anywhere in the chain
becomes `Overflow`. -/
def to_u64_chunks : List (List Nat) → Nat → Except ScalarError Nat
  | [], result => .ok result
  | chunk :: rest, result =>
      let val := le_u64 chunk
      match checked_mul result 100000000 with
      | none => .error .overflow
      | some x1 =>
          match checked_add x1 (ascii_u64_to_digits val) with
          | none => .error .overflow
          | some x2 =>
              match checked_add x2 result with
              | none => .error .overflow
              | some r => to_u64_chunks rest r

/-- `POWER10` from `to_u64`. -/
def POWER10 : List Nat := [10000000, 1000000, 100000, 10000, 1000, 100, 10, 1]

/-- The tail loop of `to_u64`: add `digit * POWER10[maxxed + i]` for each
remaining byte, with checked addition. -/
def to_u64_tail : List Nat → Nat → Nat → Nat → Except ScalarError Nat
  | [], _, _, result => .ok result
  | x :: rest, maxxed, i, result =>
      match checked_add result ((x - 48) * POWER10.getD (maxxed + i) 0) with
      | some r => to_u64_tail rest maxxed (i + 1) r
      | none => .error .overflow

/-- `to_u64` from `scalar.rs`. -/
def to_u64 (d : List Nat) : Except ScalarError Nat :=
  if d.isEmpty then .error .allDigits
  else
    let chunks := chunksExact8 d
    let remainder := chunksRemainder8 d
    if !(chunks.all is_digits_wide && is_digits remainder) then .error .allDigits
    else
      match to_u64_chunks chunks 0 with
      | .error e => .error e
      | .ok result =>
          let scaled : Except ScalarError Nat :=
            if result != 0 then
              match checked_pow10 remainder.length with
              | none => .error .overflow
              | some x =>
                  match checked_mul result x with
                  | none => .error .overflow
                  | some r => .ok r
            else .ok result
          match scaled with
          | .error e => .error e
          | .ok result2 => to_u64_tail remainder (8 - remainder.length) 0 result2

/-- Two's-complement wrap of an integer into the `i64` range. -/
def wrap_i64 (x : Int) : Int := (x + 9223372036854775808) % 18446744073709551616 - 9223372036854775808

/-- `rest as i64`: reinterpret a `u64` value as an `i64`. -/
def u64_as_i64 (r : Nat) : Int := wrap_i64 (r : Int)

/-- `to_i64` from `scalar.rs`: branch-free sign mask
`-((is_negative as i64 * 2) - 1)` times the `u64` parse of the rest,
with release-mode (wrapping) `i64` multiplication. -/
def to_i64 (d : List Nat) : Except ScalarError Int :=
  let isNegative := d.head? == some 45
  let isn : Nat := if isNegative then 1 else 0
  let sign : Int := -(((isn : Int) * 2) - 1)
  match to_u64 (d.drop isn) with
  | .error e => .error e
  | .ok rest => .ok (wrap_i64 (sign * u64_as_i64 rest))

/-- `to_f64` from `scalar.rs`, with `f64` arithmetic modelled by exact
rationals: split at the first `.`, parse both sides with `to_i64`, take the
sign of the fractional contribution from the integer part via the bithack
`1 | (lead >> 63)`, and combine with `mul_add`. -/
def to_f64 (d : List Nat) : Except ScalarError ℚ :=
  match d.findIdx? fun x => x == 46 with
  | some idx =>
      match to_i64 (d.take idx) with
      | .error e => .error e
      | .ok lead =>
          let sign : Int := Int.lor 1 (lead >>> 63)
          let leadf : ℚ := (lead : ℚ)
          let trail := d.drop (idx + 1)
          match to_i64 trail with
          | .error e => .error e
          | .ok fracI =>
              if 10 ^ trail.length < 4294967296 then
                .ok ((sign : ℚ) * ((fracI : ℚ) / ((10 ^ trail.length : Nat) : ℚ)) + leadf)
              else .error .overflow
  | none =>
      match to_i64 d with
      | .error e => .error e
      | .ok x => .ok (x : ℚ)

/-- Reference decimal reading of an all-digit byte string (the spec's
`parse-reference`): most significant digit first. -/
def digitsVal : List Nat → Nat
  | [] => 0
  | b :: rest => (b - 48) * 10 ^ rest.length + digitsVal rest

/-! ## The text tape parser (`text/tape.rs`) -/

/-- `TextToken` from `text/tape.rs`.  Scalars carry their raw bytes (the
encoding only matters for string materialisation); `Rgb` carries the three
decoded `u32` channels. -/
inductive TextToken where
  | scalar : List Nat → TextToken
  | array : Nat → TextToken
  | object : Nat → TextToken
  | tEnd : Nat → TextToken
  | rgb : Nat → Nat → Nat → TextToken
deriving DecidableEq

/-- The parse error kinds (`errors.rs` is not among the provided sources;
the kinds and offsets are modelled from the spec §7; the human-readable
`msg` of `InvalidSyntax` is omitted).  `fuelOut` is an artefact of the
fuelled embedding and is never reached with adequate fuel. -/
inductive ErrorKind where
  | eof
  | stackEmpty (offset : Nat)
  | invalidEmptyObject (offset : Nat)
  | invalidSyntax (offset : Nat)
  | fuelOut
deriving DecidableEq

/-- The twelve parser states (`ParseState` in `text/tape.rs`). -/
inductive ParseState where
  | key
  | keyValueSeparator
  | objectValue
  | arrayValue
  | parseOpen
  | firstValue
  | emptyObject
  | rgbOpen
  | rgbR
  | rgbG
  | rgbB
  | rgbClose
deriving DecidableEq

/-- The fuelled comment-skipping loop of `skip_ws_t`: drop whitespace, and
if a `#` follows, drop up to (and excluding) the next newline and repeat.
The fuel only needs to exceed the number of comment lines; `skip_ws_t`
supplies `d.length + 1`. -/
def skip_ws_fuel : Nat → List Nat → List Nat
  | 0, d => d
  | fuel + 1, d =>
      match d.dropWhile fun x => is_whitespace x with
      | 35 :: tl =>
          match tl.findIdx? fun x => x == 10 with
          | some j => skip_ws_fuel fuel (tl.drop j)
          | none => []
      | rest => rest

/-- `skip_ws_t` from `text/tape.rs`: skip whitespace runs and `#` comments. -/
def skip_ws_t (d : List Nat) : List Nat := skip_ws_fuel (d.length + 1) d

/-- `split_at_scalar` from `text/tape.rs`: split at the first boundary byte,
but always take at least one byte. -/
def split_at_scalar (d : List Nat) : List Nat × List Nat :=
  let nind := d.findIdx? fun x => is_boundary x
  let ind := max (nind.getD d.length) 1
  (d.take ind, d.drop ind)

/-- `parse_quote_scalar_fallback` from `text/tape.rs`: bytewise scan for an
unescaped closing quote, skipping two bytes after each backslash.  `d` is
the full input including the opening quote, `pos` the running index into
`d` and `r` the remainder `d.drop pos`. -/
def quote_fallback_loop (d : List Nat) : Nat → List Nat → Except ErrorKind (List Nat × List Nat)
  | pos, 92 :: _ :: r => quote_fallback_loop d (pos + 2) r
  | _, [92] => .error .eof
  | pos, 34 :: _ => .ok ((d.drop 1).take (pos - 1), d.drop (pos + 1))
  | pos, _ :: r => quote_fallback_loop d (pos + 1) r
  | _, [] => .error .eof

/-- The bytewise remainder loop of `_parse_quote_scalar` (after the 8-byte
chunks): same escape handling, on the sub-8-byte tail. -/
def quote_rem_loop (d sd : List Nat) : Nat → List Nat → Except ErrorKind (List Nat × List Nat)
  | pos, 92 :: _ :: r => quote_rem_loop d sd (pos + 2) r
  | _, [92] => .error .eof
  | pos, 34 :: _ => .ok (sd.take pos, d.drop (pos + 2))
  | pos, _ :: r => quote_rem_loop d sd (pos + 1) r
  | _, [] => .error .eof

/-- The 8-byte chunk loop of `_parse_quote_scalar`: if a chunk holds a
backslash, restart with the bytewise fallback; if it holds a quote, close
there; otherwise continue.  Returns the scalar bytes and the rest of the
input past the closing quote. -/
def quote_chunk_loop (d sd : List Nat) : Nat → List Nat → Except ErrorKind (List Nat × List Nat)
  | offset, b0 :: b1 :: b2 :: b3 :: b4 :: b5 :: b6 :: b7 :: rest =>
      let n := [b0, b1, b2, b3, b4, b5, b6, b7]
      let acc := le_u64 n
      if contains_zero_byte (acc ^^^ repeat_byte 92) then quote_fallback_loop d 1 (d.drop 1)
      else if contains_zero_byte (acc ^^^ repeat_byte 34) then
        let endIdx := (n.findIdx? fun x => x == 34).getD 0 + offset
        .ok (sd.take endIdx, d.drop (endIdx + 2))
      else quote_chunk_loop d sd (offset + 8) rest
  | offset, rem => quote_rem_loop d sd offset rem

/-- `_parse_quote_scalar` from `text/tape.rs`; `d` starts at the opening
quote. -/
def parse_quote_scalar (d : List Nat) : Except ErrorKind (List Nat × List Nat) :=
  quote_chunk_loop d (d.drop 1) 0 (d.drop 1)

/-- The mutable state of `ParserState::parse`: the remaining input, the
current `ParseState`, the token tape, `parent_ind`,
`array_ind_of_hidden_obj`, the three rgb channel registers, and the original
input length (for error offsets). -/
structure PState where
  data : List Nat
  state : ParseState
  tape : List TextToken
  parentInd : Nat
  hiddenObj : Option Nat
  red : Nat
  green : Nat
  blue : Nat
  origLen : Nat

/-- The end-slot of the container token at `i`, or 0 (the grand-parent
lookup pattern of `ParserState::parse`). -/
def grandOf (tape : List TextToken) (i : Nat) : Nat :=
  match tape[i]? with
  | some (.array x) => x
  | some (.object x) => x
  | _ => 0

/-- The state selected after a container closes, from the tag of the
grand-parent token. -/
def stateAfterClose (tape : List TextToken) (i : Nat) : ParseState :=
  match tape[i]? with
  | some (.array _) => .arrayValue
  | some (.object _) => .key
  | _ => .key

/-- The end-of-input block of `ParserState::parse` (tape.rs:316-327): a
pending `RgbOpen` re-emits the bare word `rgb` as a scalar and moves to
`Key`; the parse succeeds exactly when `parent_ind` is 0 and the state is
`Key`. -/
def eofResult (s : PState) : Except ErrorKind (List TextToken) :=
  if s.state == .rgbOpen then
    if s.parentInd == 0 then .ok (s.tape ++ [.scalar [114, 103, 98]]) else .error .eof
  else if s.parentInd == 0 && s.state == .key then .ok s.tape
  else .error .eof

/-- One dispatch of the `ParserState::parse` loop body on the next byte
`b` (rest `tl`), from `text/tape.rs`; `go` continues the loop. -/
def parseStep (go : PState → Except ErrorKind (List TextToken)) (s : PState)
    (b : Nat) (tl : List Nat) : Except ErrorKind (List TextToken) :=
  let data := b :: tl
  let offset := s.origLen - data.length
  match s.state with
  | .emptyObject =>
      if b != 125 then .error (.invalidEmptyObject offset)
      else go { s with data := tl, state := .key }
  | .key =>
      if b == 125 then
        let grandInd := grandOf s.tape s.parentInd
        let state1 := stateAfterClose s.tape grandInd
        let endIdx := s.tape.length
        if s.parentInd == 0 && grandInd == 0 then .error (.stackEmpty offset)
        else
          let tape2 := (s.tape.set s.parentInd (.object endIdx)) ++ [.tEnd s.parentInd]
          match s.hiddenObj with
          | some arrayInd =>
              let endIdx2 := tape2.length
              let tape3 := tape2 ++ [.tEnd arrayInd]
              let grandInd2 :=
                match tape3[arrayInd]? with
                | some (.array x) => x
                | _ => 0
              let tape4 := tape3.set arrayInd (.array endIdx2)
              go { s with data := tl, state := stateAfterClose tape4 grandInd2,
                                      tape := tape4, parentInd := grandInd2, hiddenObj := none }
          | none =>
              go { s with data := tl, state := state1,
                                      tape := tape2, parentInd := grandInd, hiddenObj := none }
      else if b == 123 then
        go { s with data := tl, state := .emptyObject }
      else if b == 34 then
        match parse_quote_scalar data with
        | .error e => .error e
        | .ok (sc, rest) =>
            go { s with data := rest, tape := s.tape ++ [.scalar sc],
                                    state := .keyValueSeparator }
      else
        let (sc, rest) := split_at_scalar data
        go { s with data := rest, tape := s.tape ++ [.scalar sc],
                                state := .keyValueSeparator }
  | .keyValueSeparator =>
      go { s with data := if b == 61 then tl else data, state := .objectValue }
  | .objectValue =>
      if b == 123 then
        go { s with data := tl, tape := s.tape ++ [.array 0], state := .parseOpen }
      else if b == 125 then
        go { s with state := .key }
      else if b == 34 then
        match parse_quote_scalar data with
        | .error e => .error e
        | .ok (sc, rest) =>
            go { s with data := rest, tape := s.tape ++ [.scalar sc], state := .key }
      else if b == 114 then
        let rgbDetected := data[1]? == some 103 && data[2]? == some 98 &&
          (match data[3]? with | some x => is_boundary x | none => false)
        if rgbDetected then
          go { s with data := data.drop 3, state := .rgbOpen }
        else
          let (sc, rest) := split_at_scalar data
          go { s with data := rest, tape := s.tape ++ [.scalar sc], state := .key }
      else
        let (sc, rest) := split_at_scalar data
        go { s with data := rest, tape := s.tape ++ [.scalar sc], state := .key }
  | .parseOpen =>
      if b == 125 then
        let ind := s.tape.length - 1
        let state1 := stateAfterClose s.tape s.parentInd
        go { s with data := tl,
                                tape := (s.tape.set ind (.array (ind + 1))) ++ [.tEnd ind],
                                state := state1 }
      else if b == 123 then
        let ind := s.tape.length - 1
        go { s with tape := s.tape.set ind (.array s.parentInd),
                                parentInd := ind, state := .arrayValue }
      else if b == 34 then
        match parse_quote_scalar data with
        | .error e => .error e
        | .ok (sc, rest) =>
            go { s with data := rest, tape := s.tape ++ [.scalar sc],
                                    state := .firstValue }
      else
        let (sc, rest) := split_at_scalar data
        go { s with data := rest, tape := s.tape ++ [.scalar sc],
                                state := .firstValue }
  | .firstValue =>
      if b == 61 then
        let ind := s.tape.length - 2
        go { s with data := tl, tape := s.tape.set ind (.object s.parentInd),
                                parentInd := ind, state := .objectValue }
      else
        let ind := s.tape.length - 2
        go { s with tape := s.tape.set ind (.array s.parentInd),
                                parentInd := ind, state := .arrayValue }
  | .arrayValue =>
      if b == 123 then
        go { s with data := tl, tape := s.tape ++ [.array 0], state := .parseOpen }
      else if b == 125 then
        let grandInd := grandOf s.tape s.parentInd
        let state1 := stateAfterClose s.tape grandInd
        let endIdx := s.tape.length
        go { s with data := tl,
                                tape := (s.tape.set s.parentInd (.array endIdx)) ++ [.tEnd s.parentInd],
                                parentInd := grandInd, state := state1 }
      else if b == 34 then
        match parse_quote_scalar data with
        | .error e => .error e
        | .ok (sc, rest) =>
            go { s with data := rest, tape := s.tape ++ [.scalar sc],
                                    state := .arrayValue }
      else if b == 61 then
        let newParent := s.tape.length - 1
        go { s with data := tl,
                                tape := s.tape.insertIdx (s.tape.length - 1) (.object s.parentInd),
                                parentInd := newParent, hiddenObj := some s.parentInd,
                                state := .objectValue }
      else
        let (sc, rest) := split_at_scalar data
        go { s with data := rest, tape := s.tape ++ [.scalar sc],
                                state := .arrayValue }
  | .rgbOpen =>
      if b == 123 then go { s with data := tl, state := .rgbR }
      else go { s with tape := s.tape ++ [.scalar [114, 103, 98]], state := .key }
  | .rgbR =>
      let (r, rest) := split_at_scalar data
      match to_u64 r with
      | .ok x => go { s with data := rest, red := x % 4294967296, state := .rgbG }
      | .error _ => .error (.invalidSyntax offset)
  | .rgbG =>
      let (r, rest) := split_at_scalar data
      match to_u64 r with
      | .ok x => go { s with data := rest, green := x % 4294967296, state := .rgbB }
      | .error _ => .error (.invalidSyntax offset)
  | .rgbB =>
      let (r, rest) := split_at_scalar data
      match to_u64 r with
      | .ok x => go { s with data := rest, blue := x % 4294967296, state := .rgbClose }
      | .error _ => .error (.invalidSyntax offset)
  | .rgbClose =>
      if b == 125 then
        go { s with data := tl, tape := s.tape ++ [.rgb s.red s.green s.blue],
                                state := .key }
      else .error (.invalidSyntax offset)

/-- One fuelled run of the `ParserState::parse` loop from `text/tape.rs`.
Each iteration mirrors one pass of the source loop: skip whitespace and
comments, handle end of input (`eofResult`), then dispatch on the current
state and byte via `parseStep`. -/
def parseLoop : Nat → PState → Except ErrorKind (List TextToken)
  | 0, _ => .error .fuelOut
  | fuel + 1, s =>
    match skip_ws_t s.data with
    | [] => eofResult s
    | b :: tl => parseStep (parseLoop fuel) s b tl

/-- The initial parser state for an input. -/
def initState (d : List Nat) : PState :=
  { data := d, state := .key, tape := [], parentInd := 0, hiddenObj := none,
    red := 0, green := 0, blue := 0, origLen := d.length }

/-- `TextTapeParser::parse_slice`: run the parser loop on the input.  The
fuel `4 * length + 8` always suffices: every iteration either consumes a
byte or makes one of the finitely many non-consuming state transitions. -/
def parse_slice (d : List Nat) : Except ErrorKind (List TextToken) :=
  parseLoop (4 * d.length + 8) (initState d)

/-! ## Specification-side definitions used to state the claims -/

/-- The container linkage of the tape is correct at position `p`: a
container-open with end slot `e` is answered by `End(p)` at `e`, and an
`End(s)` points back at a container-open whose end slot is this position. -/
def pairedAt (t : List TextToken) (p : Nat) : Bool :=
  match t[p]? with
  | some (.array e) => t[e]? == some (.tEnd p)
  | some (.object e) => t[e]? == some (.tEnd p)
  | some (.tEnd s) =>
      match t[s]? with
      | some (.array e) => e == p
      | some (.object e) => e == p
      | _ => false
  | _ => true

/-- Perfect pairing of container linkage over the whole tape (spec §3
invariant 1 / §8). -/
def isPaired (t : List TextToken) : Bool := (List.range t.length).all fun p => pairedAt t p

/-- The string decoding described by the claim for `Scalar1252.to_utf8`:
Windows-1252 best-fit translation in which the two-byte escape `\"` decodes
to `"` and the two-byte escape `\\` decodes to a single backslash. -/
def escapePairDecode : List Nat → List Char
  | 92 :: 34 :: r => Char.ofNat 34 :: escapePairDecode r
  | 92 :: 92 :: r => Char.ofNat 92 :: escapePairDecode r
  | b :: r => WINDOWS_1252 b :: escapePairDecode r
  | [] => []

/-- The claimed value of `Scalar1252.to_utf8`: escape-pair decoding of the
input after trimming trailing whitespace. -/
def claimDecode (d : List Nat) : List Char := escapePairDecode (trimEnd d)

/-- The amended description of `Scalar1252.to_utf8`: best-fit Windows-1252
translation of the trimmed bytes with every backslash byte dropped. -/
def dropBackslashDecode (d : List Nat) : List Char :=
  ((trimEnd d).filter fun x => x != 92).map WINDOWS_1252

/-- All members of a byte list are actual bytes. -/
def Bytes (d : List Nat) : Prop := ∀ b ∈ d, b < 256

/-! ## General lemmas about the embedded definitions -/

theorem testBit_add_mul_two_pow (k a x j : Nat) (ha : a < 2 ^ k) :
    (a + 2 ^ k * x).testBit j = if j < k then a.testBit j else x.testBit (j - k) := by
  rcases lt_or_le j k with h | h
  · simp only [if_pos h]
    rw [Nat.testBit_to_div_mod, Nat.testBit_to_div_mod]
    have hdvd : 2 ^ k * x = 2 ^ j * (2 * (2 ^ (k - j - 1) * x)) := by
      rw [← mul_assoc, ← mul_assoc, ← pow_succ, ← pow_add]
      congr 2
      omega
    rw [hdvd, Nat.add_mul_div_left _ _ (Nat.two_pow_pos j), Nat.add_mul_mod_self_left]
  · simp only [if_neg (not_lt.mpr h)]
    rw [Nat.testBit_to_div_mod, Nat.testBit_to_div_mod]
    have hj : (2:Nat) ^ j = 2 ^ k * 2 ^ (j - k) := by
      rw [← pow_add]
      congr 1
      omega
    rw [hj, ← Nat.div_div_eq_div_mul, Nat.add_mul_div_left _ _ (Nat.two_pow_pos k),
        Nat.div_eq_of_lt ha, Nat.zero_add]

theorem land_add_mul_two_pow (k a b x y : Nat) (ha : a < 2 ^ k) (hb : b < 2 ^ k) :
    (a + 2 ^ k * x) &&& (b + 2 ^ k * y) = (a &&& b) + 2 ^ k * (x &&& y) := by
  apply Nat.eq_of_testBit_eq
  intro j
  have hab : a &&& b < 2 ^ k := lt_of_le_of_lt Nat.and_le_left ha
  rw [Nat.testBit_land, testBit_add_mul_two_pow k a x j ha, testBit_add_mul_two_pow k b y j hb,
      testBit_add_mul_two_pow k _ _ j hab, Nat.testBit_land]
  by_cases h : j < k <;> simp [h]

theorem xor_add_mul_two_pow (k a b x y : Nat) (ha : a < 2 ^ k) (hb : b < 2 ^ k) :
    (a + 2 ^ k * x) ^^^ (b + 2 ^ k * y) = (a ^^^ b) + 2 ^ k * (x ^^^ y) := by
  apply Nat.eq_of_testBit_eq
  intro j
  have hab : a ^^^ b < 2 ^ k := Nat.xor_lt_two_pow ha hb
  rw [Nat.testBit_xor, testBit_add_mul_two_pow k a x j ha, testBit_add_mul_two_pow k b y j hb,
      testBit_add_mul_two_pow k _ _ j hab, Nat.testBit_xor]
  by_cases h : j < k <;> simp [h]

theorem land_byte (a b x y : Nat) (ha : a < 256) (hb : b < 256) :
    (a + 256 * x) &&& (b + 256 * y) = (a &&& b) + 256 * (x &&& y) := by
  have := land_add_mul_two_pow 8 a b x y (by norm_num [ha]) (by norm_num [hb])
  norm_num at this
  exact this

theorem xor_byte (a b x y : Nat) (ha : a < 256) (hb : b < 256) :
    (a + 256 * x) ^^^ (b + 256 * y) = (a ^^^ b) + 256 * (x ^^^ y) := by
  have := xor_add_mul_two_pow 8 a b x y (by norm_num [ha]) (by norm_num [hb])
  norm_num at this
  exact this

theorem land_two_pow_sub_one (x k : Nat) (h : x < 2 ^ k) : x &&& (2 ^ k - 1) = x := by
  apply Nat.eq_of_testBit_eq
  intro j
  rw [Nat.testBit_land, Nat.testBit_two_pow_sub_one]
  by_cases hj : j < k
  · simp [hj]
  · have hbit : x.testBit j = false :=
      Nat.testBit_lt_two_pow (lt_of_lt_of_le h (Nat.pow_le_pow_right (by norm_num) (not_lt.mp hj)))
    simp [hj, hbit]

theorem mod_mul_decomp (B a t m : Nat) (hm : 0 < m) (ha : a < B) :
    (a + B * t) % (B * m) = a + B * (t % m) := by
  conv_lhs => rw [← Nat.div_add_mod t m]
  rw [show a + B * (m * (t / m) + t % m) = a + B * (t % m) + B * m * (t / m) by ring]
  rw [Nat.add_mul_mod_self_left]
  apply Nat.mod_eq_of_lt
  have h1 : t % m ≤ m - 1 := by
    have := Nat.mod_lt t hm
    omega
  have h2 : B * (t % m) ≤ B * (m - 1) := Nat.mul_le_mul_left B h1
  have h3 : B * (m - 1) + B = B * m := by
    have : 1 ≤ m := hm
    calc B * (m - 1) + B = B * (m - 1) + B * 1 := by ring
    _ = B * (m - 1 + 1) := by ring
    _ = B * m := by rw [Nat.sub_add_cancel this]
  omega

theorem le_u64_lt (c : List Nat) (hc : ∀ b ∈ c, b < 256) : le_u64 c < 256 ^ c.length := by
  induction c with
  | nil => simp [le_u64]
  | cons b rest ih =>
      have hb : b < 256 := hc b (by simp)
      have hr := ih fun x hx => hc x (by simp [hx])
      simp only [le_u64, List.length_cons, pow_succ]
      calc b + 256 * le_u64 rest < 256 + 256 * le_u64 rest := by omega
      _ = 256 * (le_u64 rest + 1) := by ring
      _ ≤ 256 * 256 ^ rest.length := by
            apply Nat.mul_le_mul_left
            omega
      _ = 256 ^ rest.length * 256 := by ring

theorem le_u64_land (c m : List Nat) (hlen : c.length = m.length)
    (hc : ∀ b ∈ c, b < 256) (hm : ∀ b ∈ m, b < 256) :
    le_u64 c &&& le_u64 m = le_u64 (List.zipWith (· &&& ·) c m) := by
  induction c generalizing m with
  | nil => cases m with
      | nil => simp [le_u64]
      | cons y ys => simp at hlen
  | cons b rest ih =>
      cases m with
      | nil => simp at hlen
      | cons y ys =>
          simp only [le_u64, List.zipWith_cons_cons]
          rw [land_byte b y (le_u64 rest) (le_u64 ys) (hc b (by simp)) (hm y (by simp))]
          rw [ih ys (by simpa using hlen) (fun x hx => hc x (by simp [hx]))
                (fun x hx => hm x (by simp [hx]))]

theorem le_u64_xor (c m : List Nat) (hlen : c.length = m.length)
    (hc : ∀ b ∈ c, b < 256) (hm : ∀ b ∈ m, b < 256) :
    le_u64 c ^^^ le_u64 m = le_u64 (List.zipWith (· ^^^ ·) c m) := by
  induction c generalizing m with
  | nil => cases m with
      | nil => simp [le_u64]
      | cons y ys => simp at hlen
  | cons b rest ih =>
      cases m with
      | nil => simp at hlen
      | cons y ys =>
          simp only [le_u64, List.zipWith_cons_cons]
          rw [xor_byte b y (le_u64 rest) (le_u64 ys) (hc b (by simp)) (hm y (by simp))]
          rw [ih ys (by simpa using hlen) (fun x hx => hc x (by simp [hx]))
                (fun x hx => hm x (by simp [hx]))]

theorem byte_nonzero_and : ∀ c0 < 256, c0 ≠ 0 → ((c0 - 1) &&& (255 ^^^ c0) &&& 128 = 0) := by decide

theorem swar_zero (c : List Nat) (hc : ∀ b ∈ c, b < 256) :
    (((le_u64 c + (256 ^ c.length - le_u64 (List.replicate c.length 1))) % 256 ^ c.length) &&&
      (le_u64 (List.replicate c.length 255) ^^^ le_u64 c) &&&
      le_u64 (List.replicate c.length 128) ≠ 0) ↔ 0 ∈ c := by
  induction c with
  | nil => simp [le_u64]
  | cons c0 rest ih =>
      have hc0 : c0 < 256 := hc c0 (by simp)
      have hrest : ∀ b ∈ rest, b < 256 := fun x hx => hc x (by simp [hx])
      have hW : le_u64 rest < 256 ^ rest.length := le_u64_lt rest hrest
      have hL : le_u64 (List.replicate rest.length 1) < 256 ^ rest.length := by
        have := le_u64_lt (List.replicate rest.length 1) (by intro b hb; simp at hb; omega)
        simpa using this
      have hM : 0 < 256 ^ rest.length := Nat.pos_pow_of_pos _ (by norm_num)
      set n := rest.length with hn
      set W := le_u64 rest with hWdef
      set L := le_u64 (List.replicate n 1) with hLdef
      set F := le_u64 (List.replicate n 255) with hFdef
      set H := le_u64 (List.replicate n 128) with hHdef
      set M := 256 ^ n with hMdef
      have hlen : (c0 :: rest).length = n + 1 := by simp [hn]
      have erep1 : le_u64 (List.replicate (n + 1) 1) = 1 + 256 * L := by
        simp [List.replicate_succ, le_u64, hLdef]
      have erep255 : le_u64 (List.replicate (n + 1) 255) = 255 + 256 * F := by
        simp [List.replicate_succ, le_u64, hFdef]
      have erep128 : le_u64 (List.replicate (n + 1) 128) = 128 + 256 * H := by
        simp [List.replicate_succ, le_u64, hHdef]
      have hF : F < M := by
        have := le_u64_lt (List.replicate n 255) (by intro b hb; simp at hb; omega)
        simpa [hFdef, hMdef] using this
      have hxor : le_u64 (List.replicate (n + 1) 255) ^^^ le_u64 (c0 :: rest)
          = (255 ^^^ c0) + 256 * (F ^^^ W) := by
        rw [erep255]
        show (255 + 256 * F) ^^^ (c0 + 256 * W) = (255 ^^^ c0) + 256 * (F ^^^ W)
        exact xor_byte 255 c0 F W (by norm_num) hc0
      rw [hlen, erep1, erep128, hxor]
      show ((c0 + 256 * W + (256 ^ (n + 1) - (1 + 256 * L))) % 256 ^ (n + 1) &&&
          ((255 ^^^ c0) + 256 * (F ^^^ W)) &&& (128 + 256 * H) ≠ 0) ↔ 0 ∈ c0 :: rest
      have hpow : (256:Nat) ^ (n + 1) = 256 * M := by rw [pow_succ]; ring
      rw [hpow]
      by_cases h0 : c0 = 0
      · subst h0
        have hT : 0 + 256 * W + (256 * M - (1 + 256 * L)) = 255 + 256 * (W + (M - L) - 1) := by
          omega
        rw [hT, mod_mul_decomp 256 255 _ M hM (by norm_num)]
        rw [land_byte 255 (255 ^^^ 0) _ _ (by norm_num) (by norm_num)]
        rw [land_byte _ 128 _ _ (lt_of_le_of_lt Nat.and_le_left (by norm_num)) (by norm_num)]
        have : (255 &&& (255 ^^^ 0) &&& 128 : Nat) = 128 := by decide
        rw [this]
        constructor
        · intro _
          exact List.mem_cons_self 0 rest
        · intro _
          omega
      · have hT : c0 + 256 * W + (256 * M - (1 + 256 * L)) = (c0 - 1) + 256 * (W + (M - L)) := by
          omega
        rw [hT, mod_mul_decomp 256 (c0 - 1) _ M hM (by omega)]
        rw [land_byte (c0 - 1) (255 ^^^ c0) _ _ (by omega) (Nat.xor_lt_two_pow (n := 8) (by norm_num) (by norm_num [hc0]))]
        rw [land_byte _ 128 _ _ (lt_of_le_of_lt Nat.and_le_left (by omega)) (by norm_num)]
        rw [byte_nonzero_and c0 hc0 h0]
        have hiff := ih hrest
        constructor
        · intro hne
          exact List.mem_cons_of_mem _ (hiff.mp (by omega))
        · intro hmem
          have h2 : 0 ∈ rest := by
            rcases List.mem_cons.mp hmem with h | h
            · exact absurd h.symm h0
            · exact h
          have := hiff.mpr h2
          omega




theorem byte_hi : ∀ c0 < 256, (c0 &&& 128 = 0 ↔ c0 < 128) := by decide

theorem byte_xor_zero : ∀ a < 256, ((a ^^^ 92 : Nat) = 0 ↔ a = 92) := by decide

theorem hi_mask (c : List Nat) (hc : ∀ b ∈ c, b < 256) :
    (le_u64 c &&& le_u64 (List.replicate c.length 128) ≠ 0) ↔ ∃ b ∈ c, 128 ≤ b := by
  induction c with
  | nil => simp [le_u64]
  | cons c0 rest ih =>
      have hc0 : c0 < 256 := hc c0 (by simp)
      have hrest : ∀ b ∈ rest, b < 256 := fun x hx => hc x (by simp [hx])
      have hrec := ih hrest
      simp only [List.length_cons, List.replicate_succ, le_u64]
      rw [land_byte c0 128 _ _ hc0 (by norm_num)]
      constructor
      · intro hne
        rcases (by omega :
            c0 &&& 128 ≠ 0 ∨ le_u64 rest &&& le_u64 (List.replicate rest.length 128) ≠ 0) with hb | hb
        · refine ⟨c0, by simp, ?_⟩
          by_contra hlt
          exact hb ((byte_hi c0 hc0).mpr (by omega))
        · obtain ⟨b, hbmem, hble⟩ := hrec.mp hb
          exact ⟨b, by simp [hbmem], hble⟩
      · rintro ⟨b, hbmem, hble⟩
        rcases List.mem_cons.mp hbmem with h | h
        · subst h
          have hne : b &&& 128 ≠ 0 := fun hz => by
            have := (byte_hi b hc0).mp hz
            omega
          omega
        · have := hrec.mpr ⟨b, h, hble⟩
          omega

theorem zipWith_replicate_right {β : Type} (f : Nat → Nat → β) (l : List Nat) (a : Nat) :
    List.zipWith f l (List.replicate l.length a) = l.map (fun x => f x a) := by
  induction l with
  | nil => simp
  | cons x xs ih => simp [List.replicate_succ, ih]

theorem contains_zero_byte_spec (c : List Nat) (h8 : c.length = 8) (hc : ∀ b ∈ c, b < 256) :
    (contains_zero_byte (le_u64 c) = true) ↔ 0 ∈ c := by
  have hz := swar_zero c hc
  rw [h8] at hz
  unfold contains_zero_byte U64MOD
  have e1 : (18446744073709551616 : Nat) = 256 ^ 8 := by norm_num
  have e2 : (0x0101010101010101 : Nat) = le_u64 (List.replicate 8 1) := by decide
  have e3 : (0xFFFFFFFFFFFFFFFF : Nat) = le_u64 (List.replicate 8 255) := by decide
  have e4 : (0x8080808080808080 : Nat) = le_u64 (List.replicate 8 128) := by decide
  rw [e1, e2, e3, e4, bne_iff_ne]
  exact hz

theorem w1252ChunkFlag_spec (c : List Nat) (h8 : c.length = 8) (hc : ∀ b ∈ c, b < 256) :
    (w1252ChunkFlag c = true) ↔ ∃ x ∈ c, 128 ≤ x ∨ x = 92 := by
  show ((le_u64 c &&& 0x8080808080808080 != 0) ||
      contains_zero_byte (le_u64 c ^^^ repeat_byte 92)) = true ↔ _
  have e1 : (0x8080808080808080 : Nat) = le_u64 (List.replicate 8 128) := by decide
  have e2 : repeat_byte 92 = le_u64 (List.replicate 8 92) := by decide
  rw [e1, e2, ← h8]
  rw [le_u64_xor c (List.replicate c.length 92) (by simp) hc
      (by intro b hb; rw [List.eq_of_mem_replicate hb]; norm_num)]
  rw [zipWith_replicate_right]
  have hmap8 : (c.map fun x => x ^^^ 92).length = 8 := by simp [h8]
  have hmapb : ∀ b ∈ c.map fun x => x ^^^ 92, b < 256 := by
    intro b hb
    obtain ⟨x, hx, rfl⟩ := List.mem_map.mp hb
    exact Nat.xor_lt_two_pow (n := 8) (hc x hx) (by norm_num)
  rw [Bool.or_eq_true, bne_iff_ne, contains_zero_byte_spec _ hmap8 hmapb]
  rw [hi_mask c hc]
  constructor
  · rintro (⟨b, hb, hble⟩ | hzero)
    · exact ⟨b, hb, Or.inl hble⟩
    · obtain ⟨x, hx, hxz⟩ := List.mem_map.mp hzero
      exact ⟨x, hx, Or.inr ((byte_xor_zero x (hc x hx)).mp hxz)⟩
  · rintro ⟨x, hx, hge | hz⟩
    · exact Or.inl ⟨x, hx, hge⟩
    · refine Or.inr ?_
      have : (x ^^^ 92 : Nat) = 0 := (byte_xor_zero x (hc x hx)).mpr hz
      rw [← this]
      exact List.mem_map.mpr ⟨x, hx, rfl⟩




theorem w1252Tail_spec (r : List Nat) : ∀ offset : Nat,
    (w1252Tail r offset = none ↔ ∀ x ∈ r, x < 128 ∧ x ≠ 92) ∧
    (∀ i, w1252Tail r offset = some i →
      offset ≤ i ∧ ∀ x ∈ r.take (i - offset), x < 128 ∧ x ≠ 92) := by
  induction r with
  | nil =>
      intro offset
      refine ⟨by simp [w1252Tail], ?_⟩
      intro i h
      simp [w1252Tail] at h
  | cons b rest ih =>
      intro offset
      by_cases hb : b < 128 ∧ b ≠ 92
      · have hcond : (!(decide (b < 128)) || (b == 92)) = false := by
          simp [hb.1, hb.2]
        have heq : w1252Tail (b :: rest) offset = w1252Tail rest (offset + 1) := by
          simp only [w1252Tail, hcond, Bool.false_eq_true, if_false]
        rw [heq]
        constructor
        · rw [(ih (offset + 1)).1]
          constructor
          · intro hall x hx
            rcases List.mem_cons.mp hx with h | h
            · exact h ▸ hb
            · exact hall x h
          · intro hall x hx
            exact hall x (by simp [hx])
        · intro i h
          obtain ⟨hle, htake⟩ := (ih (offset + 1)).2 i h
          refine ⟨by omega, ?_⟩
          have harith : i - offset = (i - (offset + 1)) + 1 := by omega
          rw [harith, List.take_succ_cons]
          intro x hx
          rcases List.mem_cons.mp hx with h2 | h2
          · exact h2 ▸ hb
          · exact htake x h2
      · have hcond : (!(decide (b < 128)) || (b == 92)) = true := by
          rcases Decidable.not_and_iff_or_not.mp hb with h | h
          · simp [h]
          · simp at h
            simp [h]
        have heq : w1252Tail (b :: rest) offset = some offset := by
          simp only [w1252Tail, hcond, if_true]
        rw [heq]
        constructor
        · constructor
          · intro h
            exact absurd h (by simp)
          · intro hall
            exact absurd (hall b (by simp)) hb
        · intro i h
          have : i = offset := by
            have := Option.some.inj h
            omega
          subst this
          refine ⟨le_refl _, ?_⟩
          simp

theorem w1252Scan_spec : ∀ (d : List Nat) (offset : Nat), (∀ b ∈ d, b < 256) →
    (w1252Scan d offset = none ↔ ∀ x ∈ d, x < 128 ∧ x ≠ 92) ∧
    (∀ i, w1252Scan d offset = some i →
      offset ≤ i ∧ ∀ x ∈ d.take (i - offset), x < 128 ∧ x ≠ 92) := by
  intro d offset
  induction d, offset using w1252Scan.induct with
  | case1 b0 b1 b2 b3 b4 b5 b6 b7 rest offset hflag =>
      intro hc
      have heq : w1252Scan (b0 :: b1 :: b2 :: b3 :: b4 :: b5 :: b6 :: b7 :: rest) offset
          = some offset := by
        simp only [w1252Scan, hflag, if_true]
      rw [heq]
      have hbad := (w1252ChunkFlag_spec [b0, b1, b2, b3, b4, b5, b6, b7] (by simp)
        (by intro b hb; apply hc; simp at hb; rcases hb with h|h|h|h|h|h|h|h <;> simp [h])).mp hflag
      constructor
      · constructor
        · intro h
          exact absurd h (by simp)
        · intro hall
          obtain ⟨x, hx, hor⟩ := hbad
          have hxmem : x ∈ b0 :: b1 :: b2 :: b3 :: b4 :: b5 :: b6 :: b7 :: rest := by
            simp at hx
            rcases hx with h|h|h|h|h|h|h|h <;> simp [h]
          have := hall x hxmem
          rcases hor with h | h
          · exact absurd this.1 (by omega)
          · exact (this.2 h).elim
      · intro i h
        have : i = offset := (Option.some.inj h).symm
        subst this
        refine ⟨le_refl _, ?_⟩
        simp
  | case2 b0 b1 b2 b3 b4 b5 b6 b7 rest offset hflag ih =>
      intro hc
      have hfirst : ∀ x ∈ [b0, b1, b2, b3, b4, b5, b6, b7], x < 128 ∧ x ≠ 92 := by
        intro x hx
        by_contra hcon
        apply hflag
        apply (w1252ChunkFlag_spec [b0, b1, b2, b3, b4, b5, b6, b7] (by simp)
          (by intro b hb; apply hc; simp at hb; rcases hb with h|h|h|h|h|h|h|h <;> simp [h])).mpr
        refine ⟨x, hx, ?_⟩
        rcases Decidable.not_and_iff_or_not.mp hcon with h | h
        · exact Or.inl (by omega)
        · simp at h
          exact Or.inr h
      have hrest : ∀ b ∈ rest, b < 256 := by
        intro b hb
        apply hc
        simp [hb]
      have heq : w1252Scan (b0 :: b1 :: b2 :: b3 :: b4 :: b5 :: b6 :: b7 :: rest) offset
          = w1252Scan rest (offset + 8) := by
        simp only [w1252Scan, hflag, Bool.false_eq_true, if_false]
      rw [heq]
      obtain ⟨ihnone, ihsome⟩ := ih hrest
      constructor
      · rw [ihnone]
        constructor
        · intro hall x hx
          simp only [List.mem_cons] at hx
          rcases hx with h|h|h|h|h|h|h|h|h
          all_goals first
            | (exact h ▸ hfirst _ (by simp [h]))
            | (exact hall x h)
        · intro hall x hx
          apply hall
          simp [hx]
      · intro i h
        obtain ⟨hle, htake⟩ := ihsome i h
        refine ⟨by omega, ?_⟩
        have harith : i - offset = (i - (offset + 8)) + 8 := by omega
        rw [harith]
        simp only [List.take_succ_cons]
        intro x hx
        simp only [List.mem_cons] at hx
        rcases hx with h2|h2|h2|h2|h2|h2|h2|h2|h2
        all_goals first
          | (exact h2 ▸ hfirst _ (by simp [h2]))
          | (exact htake x h2)
  | case3 t offset hnot =>
      intro hc
      have heq : w1252Scan t offset = w1252Tail t offset := by
        rcases t with _ | ⟨x0, _ | ⟨x1, _ | ⟨x2, _ | ⟨x3, _ | ⟨x4, _ | ⟨x5, _ | ⟨x6, _ | ⟨x7, r⟩⟩⟩⟩⟩⟩⟩⟩
        · rfl
        · rfl
        · rfl
        · rfl
        · rfl
        · rfl
        · rfl
        · rfl
        · exact absurd rfl (by exact fun h => hnot x0 x1 x2 x3 x4 x5 x6 x7 r h)
      rw [heq]
      exact w1252Tail_spec t offset




theorem w1252_ascii : ∀ b < 128, WINDOWS_1252 b = Char.ofNat b := by decide

theorem trimEnd_mem (d : List Nat) (b : Nat) (hb : b ∈ trimEnd d) : b ∈ d := by
  have h : trimEnd d = d ∨
      trimEnd d = ((d.reverse.dropWhile fun x => is_whitespace x)).reverse := by
    unfold trimEnd
    cases d.getLast? with
    | none => exact Or.inl rfl
    | some x =>
        by_cases hw : is_whitespace x
        · simp [hw]
        · simp [hw]
  rcases h with h | h
  · rw [h] at hb
    exact hb
  · rw [h, List.mem_reverse] at hb
    exact List.mem_reverse.mp (List.Sublist.mem hb (List.dropWhile_sublist _))

/-- Claim C3 (amended): for every byte sequence, the contents produced by
`windows_1252_to_utf8` are the best-fit Windows-1252 decoding of the input
after trimming trailing whitespace with every backslash byte dropped
(`dropBackslashDecode`); in particular backslash-quote decodes to a quote
and backslash-backslash decodes to the empty string. -/
theorem windows_1252_to_utf8_content (d0 : List Nat) (hd : ∀ b ∈ d0, b < 256) :
    (windows_1252_to_utf8 d0).content = dropBackslashDecode d0 := by
  have ht : ∀ b ∈ trimEnd d0, b < 256 := fun b hb => hd b (trimEnd_mem d0 b hb)
  obtain ⟨hnone, hsome⟩ := w1252Scan_spec (trimEnd d0) 0 ht
  cases hscan : w1252Scan (trimEnd d0) 0 with
  | none =>
      have hclean := hnone.mp hscan
      simp only [windows_1252_to_utf8, dropBackslashDecode, hscan]
      have hfil : ((trimEnd d0).filter fun x => x != 92) = trimEnd d0 :=
        List.filter_eq_self.mpr fun a ha => bne_iff_ne.mpr (hclean a ha).2
      rw [hfil]
      exact List.map_congr_left fun a ha => (w1252_ascii a (hclean a ha).1).symm
  | some i =>
      have hclean : ∀ x ∈ (trimEnd d0).take i, x < 128 ∧ x ≠ 92 := by
        have := (hsome i hscan).2
        simpa using this
      simp only [windows_1252_to_utf8, dropBackslashDecode, hscan]
      conv_rhs => rw [← List.take_append_drop i (trimEnd d0), List.filter_append, List.map_append]
      congr 1
      have hfil : (((trimEnd d0).take i).filter fun x => x != 92) = (trimEnd d0).take i :=
        List.filter_eq_self.mpr fun a ha => bne_iff_ne.mpr (hclean a ha).2
      rw [hfil]
      exact List.map_congr_left fun a ha => (w1252_ascii a (hclean a ha).1).symm

/-- Claim C7 (amended): `windows_1252_to_utf8` returns a borrowed string
exactly when, after trimming trailing whitespace, the remaining bytes are
ASCII with no backslash; trailing whitespace alone does not force an owned
string, because the borrow is of the trimmed subslice. -/
theorem windows_1252_to_utf8_borrowed (d0 : List Nat) (hd : ∀ b ∈ d0, b < 256) :
    ((windows_1252_to_utf8 d0).borrowed = true) ↔ ∀ x ∈ trimEnd d0, x < 128 ∧ x ≠ 92 := by
  have ht : ∀ b ∈ trimEnd d0, b < 256 := fun b hb => hd b (trimEnd_mem d0 b hb)
  obtain ⟨hnone, hsome⟩ := w1252Scan_spec (trimEnd d0) 0 ht
  cases hscan : w1252Scan (trimEnd d0) 0 with
  | none =>
      simp only [windows_1252_to_utf8, hscan]
      simp only [true_iff]
      exact hnone.mp hscan
  | some i =>
      simp only [windows_1252_to_utf8, hscan]
      constructor
      · intro h
        exact absurd h (by simp)
      · intro hall
        have := hnone.mpr hall
        rw [hscan] at this
        exact absurd this (by simp)




theorem shift_block (B a X s : Nat) (hB : B = 2 ^ s) (ha : a < B) :
    (a + B * X) >>> s = X := by
  subst hB
  rw [Nat.shiftRight_eq_div_pow, Nat.add_mul_div_left _ _ (Nat.two_pow_pos s),
      Nat.div_eq_of_lt ha, Nat.zero_add]

theorem land16 (a b x y : Nat) (ha : a < 65536) (hb : b < 65536) :
    (a + 65536 * x) &&& (b + 65536 * y) = (a &&& b) + 65536 * (x &&& y) := by
  have := land_add_mul_two_pow 16 a b x y (by norm_num [ha]) (by norm_num [hb])
  norm_num at this
  exact this

theorem byte_and_255 : ∀ b < 256, b &&& 255 = b := by decide

theorem word_and_65535 (g : Nat) (hg : g < 65536) : g &&& 65535 = g := by
  have := land_two_pow_sub_one g 16 (by norm_num [hg])
  norm_num at this
  exact this

theorem d15 : ∀ a < 10, ((48 + a) &&& 15) = a := by decide

theorem d30 : ∀ a < 10, ((48 + a) &&& 240) = 48 := by decide

theorem d54 : ∀ a < 10, ((54 + a) &&& 240) = 48 := by decide

theorem mul2561_step (a0 a1 a2 a3 a4 a5 a6 a7 : Nat)
    (h0 : a0 < 10) (h1 : a1 < 10) (h2 : a2 < 10) (h3 : a3 < 10)
    (h4 : a4 < 10) (h5 : a5 < 10) (h6 : a6 < 10) (h7 : a7 < 10) :
    (((a0 + 256*(a1 + 256*(a2 + 256*(a3 + 256*(a4 + 256*(a5 + 256*(a6 + 256*(a7)))))))) * 2561) % U64MOD) >>> 8
      = (10*a0+a1) + 256*((10*a1+a2) + 256*((10*a2+a3) + 256*((10*a3+a4) + 256*((10*a4+a5) + 256*((10*a5+a6) + 256*((10*a6+a7))))))) := by
  have hprod : (a0 + 256*(a1 + 256*(a2 + 256*(a3 + 256*(a4 + 256*(a5 + 256*(a6 + 256*(a7)))))))) * 2561
      = a0 + 256 * (((10*a0+a1) + 256*((10*a1+a2) + 256*((10*a2+a3) + 256*((10*a3+a4) + 256*((10*a4+a5) + 256*((10*a5+a6) + 256*((10*a6+a7)))))))) + 72057594037927936 * (10*a7)) := by ring
  rw [hprod]
  have hfac : U64MOD = 256 * 72057594037927936 := by norm_num [U64MOD]
  rw [hfac, mod_mul_decomp 256 a0 _ 72057594037927936 (by norm_num) (by omega)]
  rw [Nat.add_mul_mod_self_left]
  rw [Nat.mod_eq_of_lt (by omega : ((10*a0+a1) + 256*((10*a1+a2) + 256*((10*a2+a3) + 256*((10*a3+a4) + 256*((10*a4+a5) + 256*((10*a5+a6) + 256*((10*a6+a7)))))))) < 72057594037927936)]
  exact shift_block 256 a0 _ 8 (by norm_num) (by omega)

theorem mask00FF_step (b0 b1 b2 b3 b4 b5 b6 : Nat)
    (h0 : b0 < 256) (h1 : b1 < 256) (h2 : b2 < 256) (h3 : b3 < 256)
    (h4 : b4 < 256) (h5 : b5 < 256) (h6 : b6 < 256) :
    (b0 + 256*(b1 + 256*(b2 + 256*(b3 + 256*(b4 + 256*(b5 + 256*(b6))))))) &&& 0x00FF00FF00FF00FF
      = b0 + 65536*(b2 + 65536*(b4 + 65536*b6)) := by
  have hm : (0x00FF00FF00FF00FF : Nat) = 255 + 256*(0 + 256*(255 + 256*(0 + 256*(255 + 256*(0 + 256*(255)))))) := by norm_num
  rw [hm]
  rw [land_byte _ _ _ _ h0 (by norm_num)]
  rw [land_byte _ _ _ _ h1 (by norm_num)]
  rw [land_byte _ _ _ _ h2 (by norm_num)]
  rw [land_byte _ _ _ _ h3 (by norm_num)]
  rw [land_byte _ _ _ _ h4 (by norm_num)]
  rw [land_byte _ _ _ _ h5 (by norm_num)]
  rw [byte_and_255 b0 h0, byte_and_255 b2 h2, byte_and_255 b4 h4, byte_and_255 b6 h6,
      Nat.and_zero, Nat.and_zero, Nat.and_zero]
  ring

theorem mul6553601_step (c0 c1 c2 c3 : Nat)
    (h0 : c0 < 100) (h1 : c1 < 100) (h2 : c2 < 100) (h3 : c3 < 100) :
    (((c0 + 65536*(c1 + 65536*(c2 + 65536*(c3)))) * 6553601) % U64MOD) >>> 16
      = (c1 + 100*c0) + 65536*((c2 + 100*c1) + 65536*((c3 + 100*c2))) := by
  have hprod : (c0 + 65536*(c1 + 65536*(c2 + 65536*(c3)))) * 6553601
      = c0 + 65536 * (((c1 + 100*c0) + 65536*((c2 + 100*c1) + 65536*((c3 + 100*c2)))) + 281474976710656 * (100*c3)) := by ring
  rw [hprod]
  have hfac : U64MOD = 65536 * 281474976710656 := by norm_num [U64MOD]
  rw [hfac, mod_mul_decomp 65536 c0 _ 281474976710656 (by norm_num) (by omega)]
  rw [Nat.add_mul_mod_self_left]
  rw [Nat.mod_eq_of_lt (by omega : ((c1 + 100*c0) + 65536*((c2 + 100*c1) + 65536*((c3 + 100*c2)))) < 281474976710656)]
  exact shift_block 65536 c0 _ 16 (by norm_num) (by omega)

theorem mask0000FFFF_step (g0 g1 g2 : Nat)
    (h0 : g0 < 65536) (h1 : g1 < 65536) (h2 : g2 < 65536) :
    (g0 + 65536*(g1 + 65536*g2)) &&& 0x0000FFFF0000FFFF = g0 + 4294967296*g2 := by
  have hm : (0x0000FFFF0000FFFF : Nat) = 65535 + 65536*(0 + 65536*65535) := by norm_num
  rw [hm]
  rw [land16 _ _ _ _ h0 (by norm_num)]
  rw [land16 _ _ _ _ h1 (by norm_num)]
  rw [word_and_65535 g0 h0, word_and_65535 g2 h2, Nat.and_zero]
  ring

theorem mul1e4_step (e0 e1 : Nat) (h0 : e0 < 10000) (h1 : e1 < 10000) :
    (((e0 + 4294967296*e1) * 42949672960001) % U64MOD) >>> 32 = e1 + 10000*e0 := by
  have hprod : (e0 + 4294967296*e1) * 42949672960001
      = e0 + 4294967296 * ((e1 + 10000*e0) + 4294967296 * (10000*e1)) := by ring
  rw [hprod]
  have hfac : U64MOD = 4294967296 * 4294967296 := by norm_num [U64MOD]
  rw [hfac, mod_mul_decomp 4294967296 e0 _ 4294967296 (by norm_num) (by omega)]
  rw [Nat.add_mul_mod_self_left]
  rw [Nat.mod_eq_of_lt (by omega : e1 + 10000*e0 < 4294967296)]
  exact shift_block 4294967296 e0 _ 32 (by norm_num) (by omega)




theorem le_digits_eq (a0 a1 a2 a3 a4 a5 a6 a7 : Nat) :
    le_u64 [48 + a0, 48 + a1, 48 + a2, 48 + a3, 48 + a4, 48 + a5, 48 + a6, 48 + a7] = (48 + a0) + 256*((48 + a1) + 256*((48 + a2) + 256*((48 + a3) + 256*((48 + a4) + 256*((48 + a5) + 256*((48 + a6) + 256*((48 + a7)))))))) := by
  simp [le_u64]

theorem mask0F_digits (a0 a1 a2 a3 a4 a5 a6 a7 : Nat) (h0 : a0 < 10) (h1 : a1 < 10) (h2 : a2 < 10) (h3 : a3 < 10) (h4 : a4 < 10) (h5 : a5 < 10) (h6 : a6 < 10) (h7 : a7 < 10) :
    ((48 + a0) + 256*((48 + a1) + 256*((48 + a2) + 256*((48 + a3) + 256*((48 + a4) + 256*((48 + a5) + 256*((48 + a6) + 256*((48 + a7))))))))) &&& 0x0F0F0F0F0F0F0F0F = a0 + 256*(a1 + 256*(a2 + 256*(a3 + 256*(a4 + 256*(a5 + 256*(a6 + 256*(a7))))))) := by
  have hm : (0x0F0F0F0F0F0F0F0F : Nat) = (15) + 256*((15) + 256*((15) + 256*((15) + 256*((15) + 256*((15) + 256*((15) + 256*((15)))))))) := by norm_num
  rw [hm]
  rw [land_byte _ _ _ _ (by omega : 48 + a0 < 256) (by norm_num)]
  rw [land_byte _ _ _ _ (by omega : 48 + a1 < 256) (by norm_num)]
  rw [land_byte _ _ _ _ (by omega : 48 + a2 < 256) (by norm_num)]
  rw [land_byte _ _ _ _ (by omega : 48 + a3 < 256) (by norm_num)]
  rw [land_byte _ _ _ _ (by omega : 48 + a4 < 256) (by norm_num)]
  rw [land_byte _ _ _ _ (by omega : 48 + a5 < 256) (by norm_num)]
  rw [land_byte _ _ _ _ (by omega : 48 + a6 < 256) (by norm_num)]
  rw [d15 a0 h0]
  rw [d15 a1 h1]
  rw [d15 a2 h2]
  rw [d15 a3 h3]
  rw [d15 a4 h4]
  rw [d15 a5 h5]
  rw [d15 a6 h6]
  rw [d15 a7 h7]

theorem maskF0_digits48 (a0 a1 a2 a3 a4 a5 a6 a7 : Nat) (h0 : a0 < 10) (h1 : a1 < 10) (h2 : a2 < 10) (h3 : a3 < 10) (h4 : a4 < 10) (h5 : a5 < 10) (h6 : a6 < 10) (h7 : a7 < 10) :
    ((48 + a0) + 256*((48 + a1) + 256*((48 + a2) + 256*((48 + a3) + 256*((48 + a4) + 256*((48 + a5) + 256*((48 + a6) + 256*((48 + a7))))))))) &&& 0xF0F0F0F0F0F0F0F0 = 0x3030303030303030 := by
  have hm : (0xF0F0F0F0F0F0F0F0 : Nat) = (240) + 256*((240) + 256*((240) + 256*((240) + 256*((240) + 256*((240) + 256*((240) + 256*((240)))))))) := by norm_num
  rw [hm]
  rw [land_byte _ _ _ _ (by omega : 48 + a0 < 256) (by norm_num)]
  rw [land_byte _ _ _ _ (by omega : 48 + a1 < 256) (by norm_num)]
  rw [land_byte _ _ _ _ (by omega : 48 + a2 < 256) (by norm_num)]
  rw [land_byte _ _ _ _ (by omega : 48 + a3 < 256) (by norm_num)]
  rw [land_byte _ _ _ _ (by omega : 48 + a4 < 256) (by norm_num)]
  rw [land_byte _ _ _ _ (by omega : 48 + a5 < 256) (by norm_num)]
  rw [land_byte _ _ _ _ (by omega : 48 + a6 < 256) (by norm_num)]
  rw [d30 a0 h0]
  rw [d30 a1 h1]
  rw [d30 a2 h2]
  rw [d30 a3 h3]
  rw [d30 a4 h4]
  rw [d30 a5 h5]
  rw [d30 a6 h6]
  rw [d30 a7 h7]

theorem maskF0_digits54 (a0 a1 a2 a3 a4 a5 a6 a7 : Nat) (h0 : a0 < 10) (h1 : a1 < 10) (h2 : a2 < 10) (h3 : a3 < 10) (h4 : a4 < 10) (h5 : a5 < 10) (h6 : a6 < 10) (h7 : a7 < 10) :
    ((54 + a0) + 256*((54 + a1) + 256*((54 + a2) + 256*((54 + a3) + 256*((54 + a4) + 256*((54 + a5) + 256*((54 + a6) + 256*((54 + a7))))))))) &&& 0xF0F0F0F0F0F0F0F0 = 0x3030303030303030 := by
  have hm : (0xF0F0F0F0F0F0F0F0 : Nat) = (240) + 256*((240) + 256*((240) + 256*((240) + 256*((240) + 256*((240) + 256*((240) + 256*((240)))))))) := by norm_num
  rw [hm]
  rw [land_byte _ _ _ _ (by omega : 54 + a0 < 256) (by norm_num)]
  rw [land_byte _ _ _ _ (by omega : 54 + a1 < 256) (by norm_num)]
  rw [land_byte _ _ _ _ (by omega : 54 + a2 < 256) (by norm_num)]
  rw [land_byte _ _ _ _ (by omega : 54 + a3 < 256) (by norm_num)]
  rw [land_byte _ _ _ _ (by omega : 54 + a4 < 256) (by norm_num)]
  rw [land_byte _ _ _ _ (by omega : 54 + a5 < 256) (by norm_num)]
  rw [land_byte _ _ _ _ (by omega : 54 + a6 < 256) (by norm_num)]
  rw [d54 a0 h0]
  rw [d54 a1 h1]
  rw [d54 a2 h2]
  rw [d54 a3 h3]
  rw [d54 a4 h4]
  rw [d54 a5 h5]
  rw [d54 a6 h6]
  rw [d54 a7 h7]

theorem is_digits_wide_digits (a0 a1 a2 a3 a4 a5 a6 a7 : Nat) (h0 : a0 < 10) (h1 : a1 < 10) (h2 : a2 < 10) (h3 : a3 < 10) (h4 : a4 < 10) (h5 : a5 < 10) (h6 : a6 < 10) (h7 : a7 < 10) :
    is_digits_wide [48 + a0, 48 + a1, 48 + a2, 48 + a3, 48 + a4, 48 + a5, 48 + a6, 48 + a7] = true := by
  have hU : U64MOD = 18446744073709551616 := rfl
  simp only [is_digits_wide, le_digits_eq, hU]
  rw [show ((48 + a0) + 256*((48 + a1) + 256*((48 + a2) + 256*((48 + a3) + 256*((48 + a4) + 256*((48 + a5) + 256*((48 + a6) + 256*((48 + a7))))))))) + 0x0606060606060606 = (54 + a0) + 256*((54 + a1) + 256*((54 + a2) + 256*((54 + a3) + 256*((54 + a4) + 256*((54 + a5) + 256*((54 + a6) + 256*((54 + a7)))))))) from by ring]
  rw [if_pos (by omega : ((54 + a0) + 256*((54 + a1) + 256*((54 + a2) + 256*((54 + a3) + 256*((54 + a4) + 256*((54 + a5) + 256*((54 + a6) + 256*((54 + a7))))))))) < 18446744073709551616)]
  rw [maskF0_digits48 a0 a1 a2 a3 a4 a5 a6 a7 h0 h1 h2 h3 h4 h5 h6 h7]
  rw [maskF0_digits54 a0 a1 a2 a3 a4 a5 a6 a7 h0 h1 h2 h3 h4 h5 h6 h7]
  decide

theorem ascii_u64_to_digits_digits (a0 a1 a2 a3 a4 a5 a6 a7 : Nat) (h0 : a0 < 10) (h1 : a1 < 10) (h2 : a2 < 10) (h3 : a3 < 10) (h4 : a4 < 10) (h5 : a5 < 10) (h6 : a6 < 10) (h7 : a7 < 10) :
    ascii_u64_to_digits (le_u64 [48 + a0, 48 + a1, 48 + a2, 48 + a3, 48 + a4, 48 + a5, 48 + a6, 48 + a7])
      = 10000000*a0 + 1000000*a1 + 100000*a2 + 10000*a3 + 1000*a4 + 100*a5 + 10*a6 + a7 := by
  have hU : U64MOD = 18446744073709551616 := rfl
  simp only [ascii_u64_to_digits, le_digits_eq]
  rw [mask0F_digits a0 a1 a2 a3 a4 a5 a6 a7 h0 h1 h2 h3 h4 h5 h6 h7]
  rw [mul2561_step a0 a1 a2 a3 a4 a5 a6 a7 h0 h1 h2 h3 h4 h5 h6 h7]
  rw [mask00FF_step (10*a0+a1) (10*a1+a2) (10*a2+a3) (10*a3+a4) (10*a4+a5) (10*a5+a6) (10*a6+a7)
      (by omega) (by omega) (by omega) (by omega) (by omega) (by omega) (by omega)]
  rw [mul6553601_step (10*a0+a1) (10*a2+a3) (10*a4+a5) (10*a6+a7)
      (by omega) (by omega) (by omega) (by omega)]
  rw [mask0000FFFF_step ((10*a2+a3) + 100*(10*a0+a1)) ((10*a4+a5) + 100*(10*a2+a3)) ((10*a6+a7) + 100*(10*a4+a5))
      (by omega) (by omega) (by omega)]
  rw [mul1e4_step ((10*a2+a3) + 100*(10*a0+a1)) ((10*a6+a7) + 100*(10*a4+a5)) (by omega) (by omega)]
  ring




theorem POWER10_getD : ∀ j < 8, POWER10.getD j 0 = 10 ^ (7 - j) := by decide

theorem digitsVal_lt (d : List Nat) (hd : ∀ x ∈ d, 48 ≤ x ∧ x ≤ 57) :
    digitsVal d < 10 ^ d.length := by
  induction d with
  | nil => simp [digitsVal]
  | cons b rest ih =>
      have hb := hd b (by simp)
      have hr := ih fun x hx => hd x (by simp [hx])
      simp only [digitsVal, List.length_cons, pow_succ]
      have h1 : b - 48 ≤ 9 := by omega
      have h2 : (b - 48) * 10 ^ rest.length ≤ 9 * 10 ^ rest.length :=
        Nat.mul_le_mul_right _ h1
      omega

theorem is_digits_true (d : List Nat) (hd : ∀ x ∈ d, 48 ≤ x ∧ x ≤ 57) :
    is_digits d = true := by
  induction d with
  | nil => rfl
  | cons b rest ih =>
      have hb := hd b (by simp)
      have hr := ih fun x hx => hd x (by simp [hx])
      simp only [is_digits, List.any_cons, Bool.not_eq_true', Bool.or_eq_false_iff] at hr ⊢
      refine ⟨?_, hr⟩
      simp only [Bool.or_eq_false_iff, decide_eq_false_iff_not]
      omega

theorem to_u64_tail_ok (rem : List Nat) : ∀ (maxxed i r : Nat),
    maxxed + i + rem.length = 8 →
    (∀ x ∈ rem, 48 ≤ x ∧ x ≤ 57) →
    r + digitsVal rem < U64MOD →
    to_u64_tail rem maxxed i r = .ok (r + digitsVal rem) := by
  induction rem with
  | nil =>
      intro maxxed i r hlen hdig hbound
      simp [to_u64_tail, digitsVal]
  | cons x rest ih =>
      intro maxxed i r hlen hdig hbound
      have hx := hdig x (by simp)
      have hgetd : POWER10.getD (maxxed + i) 0 = 10 ^ (7 - (maxxed + i)) :=
        POWER10_getD (maxxed + i) (by simp at hlen; omega)
      have hexp : 7 - (maxxed + i) = rest.length := by simp at hlen; omega
      have hdv : digitsVal (x :: rest) = (x - 48) * 10 ^ rest.length + digitsVal rest := rfl
      have hterm : (x - 48) * POWER10.getD (maxxed + i) 0 = (x - 48) * 10 ^ rest.length := by
        rw [hgetd, hexp]
      simp only [to_u64_tail, checked_add, hterm]
      rw [if_pos (by omega : r + (x - 48) * 10 ^ rest.length < U64MOD)]
      show to_u64_tail rest maxxed (i + 1) (r + (x - 48) * 10 ^ rest.length) = _
      rw [ih maxxed (i + 1) (r + (x - 48) * 10 ^ rest.length) (by simp at hlen ⊢; omega)
          (fun y hy => hdig y (by simp [hy])) (by omega)]
      congr 1
      omega

theorem chunksExact8_small (d : List Nat) (h : d.length < 8) :
    chunksExact8 d = [] ∧ chunksRemainder8 d = d := by
  rcases d with _ | ⟨x0, _ | ⟨x1, _ | ⟨x2, _ | ⟨x3, _ | ⟨x4, _ | ⟨x5, _ | ⟨x6, _ | ⟨x7, r⟩⟩⟩⟩⟩⟩⟩⟩
  · exact ⟨rfl, rfl⟩
  · exact ⟨rfl, rfl⟩
  · exact ⟨rfl, rfl⟩
  · exact ⟨rfl, rfl⟩
  · exact ⟨rfl, rfl⟩
  · exact ⟨rfl, rfl⟩
  · exact ⟨rfl, rfl⟩
  · exact ⟨rfl, rfl⟩
  · simp at h
    omega

theorem to_u64_short (d : List Nat) (hne : d ≠ []) (hlen : d.length ≤ 7)
    (hd : ∀ x ∈ d, 48 ≤ x ∧ x ≤ 57) : to_u64 d = .ok (digitsVal d) := by
  obtain ⟨hch, hrem⟩ := chunksExact8_small d (by omega)
  have hdv : digitsVal d < U64MOD := by
    have h1 := digitsVal_lt d hd
    have h2 : (10:Nat) ^ d.length ≤ 10 ^ 7 := Nat.pow_le_pow_right (by norm_num) hlen
    have hU : U64MOD = 18446744073709551616 := rfl
    omega
  have hemp : d.isEmpty = false := by
    cases d
    · exact absurd rfl hne
    · rfl
  simp only [to_u64, hemp, hch, hrem, Bool.false_eq_true, if_false, List.all_nil,
    is_digits_true d hd, Bool.and_self, Bool.not_true]
  have htail := to_u64_tail_ok d (8 - d.length) 0 0 (by omega) hd (by omega)
  simp only [to_u64_chunks, bne_self_eq_false, Bool.false_eq_true, if_false]
  rw [htail, Nat.zero_add]





theorem to_u64_chunks_one (c : List Nat) (hlt : ascii_u64_to_digits (le_u64 c) < U64MOD) :
    to_u64_chunks [c] 0 = .ok (ascii_u64_to_digits (le_u64 c)) := by
  have h1 : checked_mul 0 100000000 = some 0 := by
    simp [checked_mul, U64MOD]
  have h2 : checked_add 0 (ascii_u64_to_digits (le_u64 c))
      = some (ascii_u64_to_digits (le_u64 c)) := by
    simp [checked_add, hlt]
  have h3 : checked_add (ascii_u64_to_digits (le_u64 c)) 0
      = some (ascii_u64_to_digits (le_u64 c)) := by
    simp [checked_add, hlt]
  simp only [to_u64_chunks, h1, h2, h3]

theorem digits8_val (a0 a1 a2 a3 a4 a5 a6 a7 : Nat) :
    digitsVal [48 + a0, 48 + a1, 48 + a2, 48 + a3, 48 + a4, 48 + a5, 48 + a6, 48 + a7]
      = 10000000*a0 + 1000000*a1 + 100000*a2 + 10000*a3 + 1000*a4 + 100*a5 + 10*a6 + a7 := by
  simp only [digitsVal, List.length_cons, List.length_nil, Nat.add_sub_cancel_left]
  norm_num
  ring





theorem to_u64_digits (d : List Nat) (hlen1 : 1 ≤ d.length) (hlen9 : d.length ≤ 9)
    (hd : ∀ x ∈ d, 48 ≤ x ∧ x ≤ 57) : to_u64 d = .ok (digitsVal d) := by
  have hU : U64MOD = 18446744073709551616 := rfl
  rcases d with _ | ⟨x0, _ | ⟨x1, _ | ⟨x2, _ | ⟨x3, _ | ⟨x4, _ | ⟨x5, _ | ⟨x6, _ | ⟨x7, _ | ⟨x8, rest⟩⟩⟩⟩⟩⟩⟩⟩⟩
  · simp at hlen1
  · exact to_u64_short _ (by simp) (by simp) hd
  · exact to_u64_short _ (by simp) (by simp) hd
  · exact to_u64_short _ (by simp) (by simp) hd
  · exact to_u64_short _ (by simp) (by simp) hd
  · exact to_u64_short _ (by simp) (by simp) hd
  · exact to_u64_short _ (by simp) (by simp) hd
  · exact to_u64_short _ (by simp) (by simp) hd
  · -- length 8
    obtain ⟨a0, rfl⟩ : ∃ a, x0 = 48 + a := ⟨x0 - 48, by have := hd x0 (by simp); omega⟩
    obtain ⟨a1, rfl⟩ : ∃ a, x1 = 48 + a := ⟨x1 - 48, by have := hd x1 (by simp); omega⟩
    obtain ⟨a2, rfl⟩ : ∃ a, x2 = 48 + a := ⟨x2 - 48, by have := hd x2 (by simp); omega⟩
    obtain ⟨a3, rfl⟩ : ∃ a, x3 = 48 + a := ⟨x3 - 48, by have := hd x3 (by simp); omega⟩
    obtain ⟨a4, rfl⟩ : ∃ a, x4 = 48 + a := ⟨x4 - 48, by have := hd x4 (by simp); omega⟩
    obtain ⟨a5, rfl⟩ : ∃ a, x5 = 48 + a := ⟨x5 - 48, by have := hd x5 (by simp); omega⟩
    obtain ⟨a6, rfl⟩ : ∃ a, x6 = 48 + a := ⟨x6 - 48, by have := hd x6 (by simp); omega⟩
    obtain ⟨a7, rfl⟩ : ∃ a, x7 = 48 + a := ⟨x7 - 48, by have := hd x7 (by simp); omega⟩
    have h0 : a0 < 10 := by have := hd (48 + a0) (by simp); omega
    have h1 : a1 < 10 := by have := hd (48 + a1) (by simp); omega
    have h2 : a2 < 10 := by have := hd (48 + a2) (by simp); omega
    have h3 : a3 < 10 := by have := hd (48 + a3) (by simp); omega
    have h4 : a4 < 10 := by have := hd (48 + a4) (by simp); omega
    have h5 : a5 < 10 := by have := hd (48 + a5) (by simp); omega
    have h6 : a6 < 10 := by have := hd (48 + a6) (by simp); omega
    have h7 : a7 < 10 := by have := hd (48 + a7) (by simp); omega
    have hwide := is_digits_wide_digits a0 a1 a2 a3 a4 a5 a6 a7 h0 h1 h2 h3 h4 h5 h6 h7
    have hval := ascii_u64_to_digits_digits a0 a1 a2 a3 a4 a5 a6 a7 h0 h1 h2 h3 h4 h5 h6 h7
    have hVlt : ascii_u64_to_digits
        (le_u64 [48 + a0, 48 + a1, 48 + a2, 48 + a3, 48 + a4, 48 + a5, 48 + a6, 48 + a7])
          < U64MOD := by
      rw [hval, hU]
      omega
    have hchunk := to_u64_chunks_one
      [48 + a0, 48 + a1, 48 + a2, 48 + a3, 48 + a4, 48 + a5, 48 + a6, 48 + a7] hVlt
    have hch : chunksExact8 [48 + a0, 48 + a1, 48 + a2, 48 + a3, 48 + a4, 48 + a5, 48 + a6, 48 + a7]
        = [[48 + a0, 48 + a1, 48 + a2, 48 + a3, 48 + a4, 48 + a5, 48 + a6, 48 + a7]] := rfl
    have hrem : chunksRemainder8 [48 + a0, 48 + a1, 48 + a2, 48 + a3, 48 + a4, 48 + a5, 48 + a6, 48 + a7]
        = [] := rfl
    have hisdig : is_digits ([] : List Nat) = true := rfl
    simp only [to_u64, List.isEmpty_cons, Bool.false_eq_true, if_false, hch, hrem,
      List.all_cons, List.all_nil, hwide, hisdig, Bool.and_true, Bool.and_self, Bool.not_true,
      hchunk, hval]
    rw [digits8_val]
    by_cases hVz : 10000000*a0 + 1000000*a1 + 100000*a2 + 10000*a3 + 1000*a4 + 100*a5 + 10*a6 + a7 = 0
    · simp [hVz, to_u64_tail]
    · have hne : ((10000000*a0 + 1000000*a1 + 100000*a2 + 10000*a3 + 1000*a4 + 100*a5 + 10*a6 + a7 : Nat) != 0) = true := by
        simp [hVz]
      have hp : checked_pow10 (List.length ([] : List Nat)) = some 1 := by
        simp [checked_pow10, U64MOD]
      have hm : checked_mul (10000000*a0 + 1000000*a1 + 100000*a2 + 10000*a3 + 1000*a4 + 100*a5 + 10*a6 + a7) 1
          = some (10000000*a0 + 1000000*a1 + 100000*a2 + 10000*a3 + 1000*a4 + 100*a5 + 10*a6 + a7) := by
        simp [checked_mul, hU]
        omega
      simp only [hne, if_true, hp, hm, to_u64_tail]
  · -- length 9 or more
    rcases rest with _ | ⟨x9, r2⟩
    · obtain ⟨a0, rfl⟩ : ∃ a, x0 = 48 + a := ⟨x0 - 48, by have := hd x0 (by simp); omega⟩
      obtain ⟨a1, rfl⟩ : ∃ a, x1 = 48 + a := ⟨x1 - 48, by have := hd x1 (by simp); omega⟩
      obtain ⟨a2, rfl⟩ : ∃ a, x2 = 48 + a := ⟨x2 - 48, by have := hd x2 (by simp); omega⟩
      obtain ⟨a3, rfl⟩ : ∃ a, x3 = 48 + a := ⟨x3 - 48, by have := hd x3 (by simp); omega⟩
      obtain ⟨a4, rfl⟩ : ∃ a, x4 = 48 + a := ⟨x4 - 48, by have := hd x4 (by simp); omega⟩
      obtain ⟨a5, rfl⟩ : ∃ a, x5 = 48 + a := ⟨x5 - 48, by have := hd x5 (by simp); omega⟩
      obtain ⟨a6, rfl⟩ : ∃ a, x6 = 48 + a := ⟨x6 - 48, by have := hd x6 (by simp); omega⟩
      obtain ⟨a7, rfl⟩ : ∃ a, x7 = 48 + a := ⟨x7 - 48, by have := hd x7 (by simp); omega⟩
      obtain ⟨a8, rfl⟩ : ∃ a, x8 = 48 + a := ⟨x8 - 48, by have := hd x8 (by simp); omega⟩
      have h0 : a0 < 10 := by have := hd (48 + a0) (by simp); omega
      have h1 : a1 < 10 := by have := hd (48 + a1) (by simp); omega
      have h2 : a2 < 10 := by have := hd (48 + a2) (by simp); omega
      have h3 : a3 < 10 := by have := hd (48 + a3) (by simp); omega
      have h4 : a4 < 10 := by have := hd (48 + a4) (by simp); omega
      have h5 : a5 < 10 := by have := hd (48 + a5) (by simp); omega
      have h6 : a6 < 10 := by have := hd (48 + a6) (by simp); omega
      have h7 : a7 < 10 := by have := hd (48 + a7) (by simp); omega
      have h8 : a8 < 10 := by have := hd (48 + a8) (by simp); omega
      have hwide := is_digits_wide_digits a0 a1 a2 a3 a4 a5 a6 a7 h0 h1 h2 h3 h4 h5 h6 h7
      have hval := ascii_u64_to_digits_digits a0 a1 a2 a3 a4 a5 a6 a7 h0 h1 h2 h3 h4 h5 h6 h7
      have hVlt : ascii_u64_to_digits
          (le_u64 [48 + a0, 48 + a1, 48 + a2, 48 + a3, 48 + a4, 48 + a5, 48 + a6, 48 + a7])
            < U64MOD := by
        rw [hval, hU]
        omega
      have hchunk := to_u64_chunks_one
        [48 + a0, 48 + a1, 48 + a2, 48 + a3, 48 + a4, 48 + a5, 48 + a6, 48 + a7] hVlt
      have hch : chunksExact8
          [48 + a0, 48 + a1, 48 + a2, 48 + a3, 48 + a4, 48 + a5, 48 + a6, 48 + a7, 48 + a8]
          = [[48 + a0, 48 + a1, 48 + a2, 48 + a3, 48 + a4, 48 + a5, 48 + a6, 48 + a7]] := rfl
      have hrem : chunksRemainder8
          [48 + a0, 48 + a1, 48 + a2, 48 + a3, 48 + a4, 48 + a5, 48 + a6, 48 + a7, 48 + a8]
          = [48 + a8] := rfl
      have hisdig : is_digits [48 + a8] = true :=
        is_digits_true _ (by intro x hx; simp at hx; omega)
      have hdv1 : digitsVal [48 + a8] = a8 := by
        simp [digitsVal]
      have hdv9 : digitsVal
          [48 + a0, 48 + a1, 48 + a2, 48 + a3, 48 + a4, 48 + a5, 48 + a6, 48 + a7, 48 + a8]
          = (10000000*a0 + 1000000*a1 + 100000*a2 + 10000*a3 + 1000*a4 + 100*a5 + 10*a6 + a7) * 10 + a8 := by
        simp only [digitsVal, List.length_cons, List.length_nil, Nat.add_sub_cancel_left]
        norm_num
        ring
      simp only [to_u64, List.isEmpty_cons, Bool.false_eq_true, if_false, hch, hrem,
        List.all_cons, List.all_nil, hwide, Bool.and_true, Bool.and_self, hisdig,
        Bool.not_true, hchunk, hval]
      by_cases hVz : 10000000*a0 + 1000000*a1 + 100000*a2 + 10000*a3 + 1000*a4 + 100*a5 + 10*a6 + a7 = 0
      · have htail0 := to_u64_tail_ok [48 + a8] 7 0 0 (by simp) (by intro x hx; simp at hx; omega)
          (by rw [hdv1, hU]; omega)
        simp only [hVz, bne_self_eq_false, Bool.false_eq_true, if_false]
        show to_u64_tail [48 + a8] 7 0 0 = _
        rw [htail0, hdv9, hdv1, hVz]
      · have hV10 := hVz
        have hne : ((10000000*a0 + 1000000*a1 + 100000*a2 + 10000*a3 + 1000*a4 + 100*a5 + 10*a6 + a7 : Nat) != 0) = true := by
          simp [hVz]
        have hp : checked_pow10 (List.length [48 + a8]) = some 10 := by
          simp [checked_pow10, U64MOD]
        have hm : checked_mul (10000000*a0 + 1000000*a1 + 100000*a2 + 10000*a3 + 1000*a4 + 100*a5 + 10*a6 + a7) 10
            = some ((10000000*a0 + 1000000*a1 + 100000*a2 + 10000*a3 + 1000*a4 + 100*a5 + 10*a6 + a7) * 10) := by
          simp [checked_mul, hU]
          omega
        have htailV := to_u64_tail_ok [48 + a8] 7 0
          ((10000000*a0 + 1000000*a1 + 100000*a2 + 10000*a3 + 1000*a4 + 100*a5 + 10*a6 + a7) * 10)
          (by simp) (by intro x hx; simp at hx; omega)
          (by rw [hdv1, hU]; omega)
        simp only [hne, if_true, hp, hm]
        show to_u64_tail [48 + a8] 7 0
          ((10000000*a0 + 1000000*a1 + 100000*a2 + 10000*a3 + 1000*a4 + 100*a5 + 10*a6 + a7) * 10) = _
        rw [htailV, hdv9, hdv1]
    · simp at hlen9





theorem wrap_i64_id (x : Int) (h1 : -9223372036854775808 ≤ x) (h2 : x < 9223372036854775808) :
    wrap_i64 x = x := by
  unfold wrap_i64
  omega

theorem to_i64_neg_of (d : List Nat) (r : Nat) (h45 : d.head? = some 45)
    (hu : to_u64 (d.drop 1) = .ok r) (hr : r ≤ 9223372036854775808) :
    to_i64 d = .ok (-(r : Int)) := by
  have hbeq : (d.head? == some 45) = true := by
    simp [h45]
  simp only [to_i64, hbeq, if_true, hu, Nat.cast_one]
  have hw : wrap_i64 (-((1:Int) * 2 - 1) * u64_as_i64 r) = -(r : Int) := by
    unfold wrap_i64 u64_as_i64 wrap_i64
    have h0 : (0 : Int) ≤ (r : Int) := Int.natCast_nonneg r
    have hrle : (r : Int) ≤ 9223372036854775808 := by exact_mod_cast hr
    omega
  rw [hw]

theorem to_i64_pos_of (d : List Nat) (r : Nat) (h45 : d.head? ≠ some 45)
    (hu : to_u64 d = .ok r) (hr : r < 9223372036854775808) :
    to_i64 d = .ok (r : Int) := by
  have hbeq : (d.head? == some 45) = false := by
    simp [h45]
  simp only [to_i64, hbeq, Bool.false_eq_true, if_false, List.drop_zero, hu, Nat.cast_zero]
  have hw : wrap_i64 (-((0:Int) * 2 - 1) * u64_as_i64 r) = (r : Int) := by
    unfold wrap_i64 u64_as_i64 wrap_i64
    have h0 : (0 : Int) ≤ (r : Int) := Int.natCast_nonneg r
    have hrlt : (r : Int) < 9223372036854775808 := by exact_mod_cast hr
    omega
  rw [hw]



/-- Claim C6 (amended): when input is exhausted (whitespace skipping leaves
nothing), a pending `RgbOpen` appends a plain `rgb` scalar and then the
ordinary termination test applies: success iff no container is open
(parent index 0), else `Eof`; in any other state than `Key` with parent
index 0 the parse fails with `Eof`. -/
theorem parse_eof_characterization (fuel : Nat) (s : PState) (h : skip_ws_t s.data = []) :
    parseLoop (fuel + 1) s =
      (if s.state = .rgbOpen then
        (if s.parentInd = 0 then .ok (s.tape ++ [.scalar [114, 103, 98]]) else .error .eof)
      else if s.parentInd = 0 ∧ s.state = .key then .ok s.tape
      else .error .eof) := by
  have hstep : parseLoop (fuel + 1) s = eofResult s := by
    rw [parseLoop, h]
  rw [hstep]
  unfold eofResult
  by_cases h1 : s.state = .rgbOpen
  · have hb1 : (s.state == ParseState.rgbOpen) = true := by simp [h1]
    simp only [hb1, if_true, if_pos h1]
    by_cases h2 : s.parentInd = 0
    · have hb2 : (s.parentInd == 0) = true := by simp [h2]
      simp [hb2, h2]
    · have hb2 : (s.parentInd == 0) = false := by simp [h2]
      simp [hb2, h2]
  · have hb1 : (s.state == ParseState.rgbOpen) = false := by simp [h1]
    simp only [hb1, Bool.false_eq_true, if_false, if_neg h1]
    by_cases h2 : s.parentInd = 0
    · by_cases h3 : s.state = .key
      · have hb2 : (s.parentInd == 0) = true := by simp [h2]
        have hb3 : (s.state == ParseState.key) = true := by simp [h3]
        simp [hb2, hb3, h2, h3]
      · have hb3 : (s.state == ParseState.key) = false := by simp [h3]
        simp [hb3, h3]
    · have hb2 : (s.parentInd == 0) = false := by simp [h2]
      simp [hb2, h2]

theorem to_f64_neg_zero_aux (D : List Nat) (h1 : 1 ≤ D.length) (h9 : D.length ≤ 9)
    (hd : ∀ x ∈ D, 48 ≤ x ∧ x ≤ 57) :
    to_f64 ([45, 48, 46] ++ D) = .ok ((digitsVal D : ℚ) / 10 ^ D.length) := by
  have hidx : ([45, 48, 46] ++ D).findIdx? (fun x => x == 46) = some 2 := by
    simp [List.findIdx?_cons]
  have htake : ([45, 48, 46] ++ D).take 2 = [45, 48] := rfl
  have hdrop : ([45, 48, 46] ++ D).drop (2 + 1) = D := rfl
  have hlead : to_i64 [45, 48] = .ok 0 := by decide
  have hDhead : D.head? ≠ some 45 := by
    cases D with
    | nil => simp at h1
    | cons x rest =>
        have := hd x (by simp)
        simp only [List.head?_cons, ne_eq, Option.some.injEq]
        omega
  have hDval := to_u64_digits D h1 h9 hd
  have hp9 : (10:Nat) ^ 9 = 1000000000 := by norm_num
  have hDlt : digitsVal D < 9223372036854775808 := by
    have hv := digitsVal_lt D hd
    have h2 : (10:Nat) ^ D.length ≤ 10 ^ 9 := Nat.pow_le_pow_right (by norm_num) h9
    omega
  have hfrac := to_i64_pos_of D (digitsVal D) hDhead hDval hDlt
  have hsign : Int.lor 1 ((0:Int) >>> 63) = 1 := by decide
  have hpow : 10 ^ D.length < 4294967296 := by
    have h2 : (10:Nat) ^ D.length ≤ 10 ^ 9 := Nat.pow_le_pow_right (by norm_num) h9
    omega
  simp only [to_f64, hidx, htake, hdrop, hlead, hfrac, hsign, if_pos hpow]
  simp only [Except.ok.injEq]
  push_cast
  ring

/-! ## Theorems for the concrete claims -/

/-- Claim C1: the spec requires `to_u64` to accumulate
`result = result * 10^8 + chunk_value`, so every all-digit sequence whose
value fits `u64` parses to that value, in particular 16-digit inputs.  The
code instead computes `result * 10^8 + chunk_value + result` (an extra
`checked_add(result)`), so already the 16-digit input `1000000000000000`
(value `10^15`) evaluates to `1000000010000000`. -/
theorem to_u64_chunk_accumulation_bug :
    to_u64 (bytes "1000000000000000") = .ok 1000000010000000 ∧
    digitsVal (bytes "1000000000000000") = 1000000000000000 ∧
    (1000000010000000 : Nat) ≠ 1000000000000000 := by
  refine ⟨by decide, by decide, by decide⟩

/-- Claim C2: the claim says container linkage is perfectly paired after
every successful parse.  The input `a={ 1 b=2 c={d=3}` parses successfully,
yet the hidden-object bookkeeping was already consumed when the inner
object `c={d=3}` closed, leaving the hidden `Object` at position 3 whose
end slot 1 holds `Array(11)` rather than `End(3)`: the tape is not
paired. -/
theorem tape_pairing_violation :
    parse_slice (bytes "a=\x7b 1 b=2 c=\x7bd=3\x7d") =
      .ok [.scalar [97], .array 11, .scalar [49], .object 1, .scalar [98], .scalar [50],
           .scalar [99], .object 10, .scalar [100], .scalar [51], .tEnd 7, .tEnd 1] ∧
    isPaired [.scalar [97], .array 11, .scalar [49], .object 1, .scalar [98], .scalar [50],
              .scalar [99], .object 10, .scalar [100], .scalar [51], .tEnd 7, .tEnd 1] = false := by
  refine ⟨by decide, by decide⟩

/-- Claim C4: parsing `levels={ 10 0=2 1=2 } foo={bar=qux}` inserts the
synthetic `Object` before the element that is followed by `=`, emits two
back-to-back `End` tokens when the hidden object closes at the surrounding
`}`, and yields exactly the claimed 15-token tape. -/
theorem hidden_object_tape :
    parse_slice (bytes "levels={ 10 0=2 1=2 } foo={bar=qux}") =
      .ok [.scalar (bytes "levels"), .array 9, .scalar (bytes "10"), .object 8,
           .scalar (bytes "0"), .scalar (bytes "2"), .scalar (bytes "1"), .scalar (bytes "2"),
           .tEnd 3, .tEnd 1, .scalar (bytes "foo"), .object 14, .scalar (bytes "bar"),
           .scalar (bytes "qux"), .tEnd 11] := by decide

/-- Claim C10: an RGB channel may be any scalar that `to_u64` accepts;
channel values of `2^32` or more are stored reduced modulo `2^32`
(`u64` cast to `u32`), so `color = rgb { 4294967296 0 0 }` parses
successfully with red channel 0. -/
theorem rgb_channel_mod :
    parse_slice (bytes "color = rgb { 4294967296 0 0 }") =
      .ok [.scalar (bytes "color"), .rgb 0 0 0] := by decide

/-- Claim C8 (counterexample): the claim says `==bar` produces the three
tokens `=`, `=`, `bar`; the parser actually consumes the second `=` as the
key-value separator. -/
theorem equal_equal_counterexample :
    parse_slice (bytes "==bar") ≠
      .ok [.scalar [61], .scalar [61], .scalar (bytes "bar")] := by decide

/-- Claim C8 (amended): a bare scalar is always at least one byte long, and
`==bar` parses as the key scalar `=` followed by the value scalar `bar`;
the second `=` is consumed as the key-value separator and produces no
token. -/
theorem equal_equal_tape :
    (∀ d : List Nat, d ≠ [] → 1 ≤ (split_at_scalar d).1.length) ∧
    parse_slice (bytes "==bar") = .ok [.scalar [61], .scalar (bytes "bar")] := by
  refine ⟨fun d hd => ?_, by decide⟩
  have h1 : 1 ≤ d.length := by cases d with | nil => simp at hd | cons a t => simp
  simp only [split_at_scalar, List.length_take]
  omega

/-- Claim C8 (witness for the amended theorem): the scalar split of the
two-byte input `==` takes at least one byte. -/
theorem equal_equal_tape_witness : 1 ≤ (split_at_scalar [61, 61]).1.length :=
  equal_equal_tape.1 [61, 61] (by decide)

/-- Claim C5 (counterexample): the claim says a sign-free magnitude above
`i64::MAX` fails with `Overflow`; instead `to_i64` wraps the `u64` value
(here the value produced by the chunked `to_u64`) into a negative number
and succeeds. -/
theorem to_i64_wrap_counterexample :
    to_i64 (bytes "9223372036854775808") = .ok (-9223371944621055808) ∧
    (Except.ok (-9223371944621055808) : Except ScalarError Int) ≠ .error .overflow := by
  refine ⟨by decide, by decide⟩

/-- Claim C6 (counterexample): the claim says that whenever the input ends
in state `RgbOpen` the parse finishes successfully; but with a container
still open (`a={b=rgb `, reaching end of input in `RgbOpen` with parent
index 1) the parser pushes the `rgb` scalar and then fails with `Eof`. -/
theorem rgb_eof_depth_counterexample :
    parse_slice (bytes "a=\x7bb=rgb ") = .error .eof ∧
    parseLoop 1 { data := [], state := .rgbOpen,
                  tape := [.scalar [97], .object 0, .scalar [98]],
                  parentInd := 1, hiddenObj := none, red := 0, green := 0, blue := 0,
                  origLen := 9 } = .error .eof := by
  refine ⟨by decide, by decide⟩

/-- Claim C7 (counterexample): the claim says trailing whitespace forces an
owned string; in fact the trim happens first and `a ` (letter plus space)
is returned as a borrowed view of the trimmed subslice. -/
theorem borrow_trailing_ws_counterexample :
    windows_1252_to_utf8 [97, 32] = ⟨true, [Char.ofNat 97]⟩ := by decide

/-- Claim C3 (counterexample): the claim says the two-byte sequence `\\`
decodes to a single backslash; the code drops every backslash byte, so the
input of two backslashes decodes to the empty string. -/
theorem backslash_backslash_counterexample :
    claimDecode [92, 92] = [Char.ofNat 92] ∧
    (windows_1252_to_utf8 [92, 92]).content = [] := by
  refine ⟨by decide, by decide⟩

/-- Claim C6 (witness): at end of input in state `RgbOpen` with no open
container, the parse finishes with the single scalar `rgb`. -/
theorem parse_eof_characterization_witness :
    parseLoop 1 { data := [], state := .rgbOpen, tape := [], parentInd := 0,
                  hiddenObj := none, red := 0, green := 0, blue := 0,
                  origLen := 0 } = .ok [.scalar [114, 103, 98]] := by
  rw [parse_eof_characterization 0 _ (by decide)]
  decide

/-- Claim C3 (witness): the amended content equation evaluated on the
concrete bytes `\a\"È`. -/
theorem windows_1252_to_utf8_content_witness :
    (∀ b ∈ [92, 97, 92, 34, 200], b < 256) ∧
    (windows_1252_to_utf8 [92, 97, 92, 34, 200]).content =
      dropBackslashDecode [92, 97, 92, 34, 200] :=
  ⟨by decide, windows_1252_to_utf8_content [92, 97, 92, 34, 200] (by decide)⟩

/-- Claim C7 (witness): the borrow criterion evaluated on the concrete
bytes of `a` followed by a space. -/
theorem windows_1252_to_utf8_borrowed_witness :
    (∀ b ∈ [97, 32], b < 256) ∧
    (((windows_1252_to_utf8 [97, 32]).borrowed = true) ↔
      ∀ x ∈ trimEnd [97, 32], x < 128 ∧ x ≠ 92) :=
  ⟨by decide, windows_1252_to_utf8_borrowed [97, 32] (by decide)⟩

/-- Claim C5 (amended): `to_i64` inspects the first byte: a leading `-`
negates the `to_u64` value of the rest, otherwise the whole input is parsed
by `to_u64` and returned as a signed value; in-range results are exact, but
a magnitude above `i64::MAX` is wrapped two's-complement rather than
rejected with `Overflow` (third conjunct: the concrete wrap). -/
theorem to_i64_sign_behaviour :
    (∀ (d : List Nat) (r : Nat), d.head? = some 45 → to_u64 (d.drop 1) = .ok r →
      r ≤ 9223372036854775808 → to_i64 d = .ok (-(r : Int))) ∧
    (∀ (d : List Nat) (r : Nat), d.head? ≠ some 45 → to_u64 d = .ok r →
      r < 9223372036854775808 → to_i64 d = .ok (r : Int)) ∧
    to_i64 (bytes "9223372036854775808") = .ok (-9223371944621055808) := by
  refine ⟨fun d r h45 hu hr => to_i64_neg_of d r h45 hu hr,
          fun d r h45 hu hr => to_i64_pos_of d r h45 hu hr, by decide⟩

/-- Claim C5 (witness): the sign rules evaluated at `-5` and `7`. -/
theorem to_i64_sign_behaviour_witness :
    to_i64 [45, 53] = .ok (-((5 : Nat) : Int)) ∧
    to_i64 [55] = .ok ((7 : Nat) : Int) :=
  ⟨to_i64_sign_behaviour.1 [45, 53] 5 (by decide) (by decide) (by decide),
   to_i64_sign_behaviour.2.1 [55] 7 (by decide) (by decide) (by decide)⟩

/-- Claim C9: for a nonzero digit string `D` of length 1 to 9, the input
`-0.D` parses to the positive rational `D / 10 ^ |D|`: the sign factor
`1 | (lead >> 63)` with lead `to_i64("-0") = 0` is `+1`, so the minus sign
is lost. -/
theorem to_f64_neg_zero (D : List Nat) (h1 : 1 ≤ D.length) (h9 : D.length ≤ 9)
    (hd : ∀ x ∈ D, 48 ≤ x ∧ x ≤ 57) (hpos : digitsVal D ≠ 0) :
    to_f64 ([45, 48, 46] ++ D) = .ok ((digitsVal D : ℚ) / 10 ^ D.length) ∧
    0 < ((digitsVal D : ℚ) / 10 ^ D.length) := by
  refine ⟨to_f64_neg_zero_aux D h1 h9 hd, ?_⟩
  apply div_pos
  · exact_mod_cast Nat.pos_of_ne_zero hpos
  · positivity

/-- Claim C9 (witness): `-0.5` parses to the positive value `5 / 10`. -/
theorem to_f64_neg_zero_witness :
    (1 ≤ ([53] : List Nat).length) ∧
    (to_f64 ([45, 48, 46] ++ [53]) =
        .ok ((digitsVal [53] : ℚ) / 10 ^ ([53] : List Nat).length) ∧
      0 < ((digitsVal [53] : ℚ) / 10 ^ ([53] : List Nat).length)) :=
  ⟨by decide, to_f64_neg_zero [53] (by decide) (by decide) (by decide) (by decide)⟩

end Jomini
